import Mathlib

/-!
FFdynamic, `davStreamlet.h`: Streamlet tags, Streamlets and the River

A shallow embedding of `src/FFdynamic/davStreamlet/davStreamlet.h`.

* `DavStreamletTag` is the (name, category) pair that identifies a Streamlet.
* `DavStreamlet` groups processing units (`DavWave`). Units are held through
  `shared_ptr`, so the embedding keeps them in a heap (`Waves`) and a Streamlet
  stores their addresses (`WavePtr`).
* `DavRiver` owns a `std::map` from tags to `shared_ptr<DavStreamlet>`; the map is a
  list of entries kept in ascending key order, the Streamlets live in the heap of
  a `World`.

Mutexes are not modelled: every operation is one atomic step.
-/

namespace ff_dynamic

/-! ## Tags -/

/-- A `std::type_index`: the identity of a C++ type. Two types have the same index
exactly when they are the same type. The order between indices is implementation
defined; the embedding orders them as numbers. -/
abbrev type_index := Nat

/-- The index `type_index(typeid(DavStreamletTag))`. -/
def typeid_DavStreamletTag : type_index := 0
/-- The index `type_index(typeid(DavUnknownStreamletTag))`. -/
def typeid_DavUnknownStreamletTag : type_index := 1
/-- The index `type_index(typeid(DavDefaultInputStreamletTag))`. -/
def typeid_DavDefaultInputStreamletTag : type_index := 2
/-- The index `type_index(typeid(DavDefaultOutputStreamletTag))`. -/
def typeid_DavDefaultOutputStreamletTag : type_index := 3
/-- The index `type_index(typeid(DavMixStreamletTag))`. -/
def typeid_DavMixStreamletTag : type_index := 4
/-- The index `type_index(typeid(DavSingleWaveStreamletTag))`. -/
def typeid_DavSingleWaveStreamletTag : type_index := 5

/-- The struct `DavStreamletTag`. The field defaults are those of the defaulted
constructor: an empty name and the category `typeid(DavStreamletTag)`. The derived
tag structs add no members, so they are values of this type. -/
structure DavStreamletTag where
  m_streamletName : String := ""
  m_streamletCategory : type_index := typeid_DavStreamletTag
deriving DecidableEq, Repr

/-- The method `DavStreamletTag::setTag`. -/
def DavStreamletTag.setTag (_self : DavStreamletTag) (streamletName : String)
    (category : type_index) : DavStreamletTag :=
  { m_streamletName := streamletName, m_streamletCategory := category }

/-- The default constructor `DavStreamletTag()`. -/
def DavStreamletTag.new : DavStreamletTag := {}

/-- The constructor `DavStreamletTag(streamletName, category)`. -/
def DavStreamletTag.ofNameCategory (streamletName : String) (category : type_index) :
    DavStreamletTag :=
  DavStreamletTag.new.setTag streamletName category

/-- The constructor `DavUnknownStreamletTag()`. -/
def DavUnknownStreamletTag : DavStreamletTag :=
  DavStreamletTag.ofNameCategory "unknownStreamlet" typeid_DavUnknownStreamletTag

/-- The constructor `DavUnknownStreamletTag(streamletName)`. -/
def DavUnknownStreamletTag.named (streamletName : String) : DavStreamletTag :=
  DavStreamletTag.ofNameCategory streamletName typeid_DavUnknownStreamletTag

/-- The constructor `DavDefaultInputStreamletTag()`. -/
def DavDefaultInputStreamletTag : DavStreamletTag :=
  DavStreamletTag.ofNameCategory "DefaultInputStreamlet" typeid_DavDefaultInputStreamletTag

/-- The constructor `DavDefaultInputStreamletTag(streamletName)`. -/
def DavDefaultInputStreamletTag.named (streamletName : String) : DavStreamletTag :=
  DavStreamletTag.ofNameCategory streamletName typeid_DavDefaultInputStreamletTag

/-- The constructor `DavDefaultOutputStreamletTag()`. -/
def DavDefaultOutputStreamletTag : DavStreamletTag :=
  DavStreamletTag.ofNameCategory "DefaultOutputStreamlet" typeid_DavDefaultOutputStreamletTag

/-- The constructor `DavDefaultOutputStreamletTag(streamletName)`. -/
def DavDefaultOutputStreamletTag.named (streamletName : String) : DavStreamletTag :=
  DavStreamletTag.ofNameCategory streamletName typeid_DavDefaultOutputStreamletTag

/-- The constructor `DavMixStreamletTag()`. -/
def DavMixStreamletTag : DavStreamletTag :=
  DavStreamletTag.ofNameCategory "MixStreamlet" typeid_DavMixStreamletTag

/-- The constructor `DavMixStreamletTag(streamletName)`. -/
def DavMixStreamletTag.named (streamletName : String) : DavStreamletTag :=
  DavStreamletTag.ofNameCategory streamletName typeid_DavMixStreamletTag

/-- The constructor `DavSingleWaveStreamletTag()`. -/
def DavSingleWaveStreamletTag : DavStreamletTag :=
  DavStreamletTag.ofNameCategory "SingleWaveStreamlet" typeid_DavSingleWaveStreamletTag

/-- The constructor `DavSingleWaveStreamletTag(streamletName)`. -/
def DavSingleWaveStreamletTag.named (streamletName : String) : DavStreamletTag :=
  DavStreamletTag.ofNameCategory streamletName typeid_DavSingleWaveStreamletTag

/-- Modelled from the spec: `operator<` on tags is only declared in davStreamlet.h
(`extern`), its body is in a source file that is not available. The spec orders tags
by name first (lexicographic, as `std::string` compares), ties broken by category. -/
def operator_lt (l r : DavStreamletTag) : Bool :=
  if l.m_streamletName.toList < r.m_streamletName.toList then true
  else if r.m_streamletName.toList < l.m_streamletName.toList then false
  else decide (l.m_streamletCategory < r.m_streamletCategory)

/-- Modelled from the spec: `operator==` on tags is only declared in davStreamlet.h
(`extern`). The spec defines equality as name equal and category equal. -/
def operator_eq (l r : DavStreamletTag) : Bool :=
  l.m_streamletName == r.m_streamletName && l.m_streamletCategory == r.m_streamletCategory

/-! ## Processing units -/

/-- Address of a `DavWave` held through `shared_ptr<DavWave>`. The pointers handed to a
Streamlet are not null: the code dereferences each of them. -/
abbrev WavePtr := Nat

/-- Address of a `DavStreamlet` held through `shared_ptr<DavStreamlet>`. The pointers
handed to a River are not null: `init` and `add` dereference each of them. -/
abbrev StreamletPtr := Nat

/-- The classification of a unit, compared with `==` only. -/
abbrev DavWaveClassCategory := Nat

/-- The part of `DavMessager` that the Streamlet reads: the message code. -/
structure DavMessager where
  m_msgCode : Int
deriving DecidableEq, Repr

/-- The lifecycle calls that a Streamlet forwards to its units. -/
inductive WaveCall where
  | start
  | pause
  | resume
  | stop
  | reset
deriving DecidableEq, Repr

/-- What a unit reports about itself: the results of `isStopped()`, `hasErr()` and
`getErr()`. -/
structure DavWaveStatus where
  isStopped : Bool
  hasErr : Bool
  getErr : DavMessager
deriving DecidableEq, Repr

/-- Modelled from the spec: `DavWave` is declared in davWave.h, which is not among the
sources. A unit has a group id that `setGroupId` overwrites, a classification, and a
lifecycle and error state of its own that this layer only observes. -/
structure DavWave where
  m_groupId : Nat
  m_waveCategory : DavWaveClassCategory
  m_status : DavWaveStatus
deriving DecidableEq, Repr

/-- Modelled from the spec: how a unit reacts to a lifecycle call is the unit's own
business; the reaction gives the status the unit reports after the call. -/
abbrev WaveReaction := WaveCall → DavWave → DavWaveStatus

/-- The method `DavWave::isStopped`. -/
def DavWave.isStopped (w : DavWave) : Bool := w.m_status.isStopped

/-- The method `DavWave::hasErr`. -/
def DavWave.hasErr (w : DavWave) : Bool := w.m_status.hasErr

/-- The method `DavWave::getErr`. -/
def DavWave.getErr (w : DavWave) : DavMessager := w.m_status.getErr

/-- The method `DavWave::getDavWaveCategory`. -/
def DavWave.getDavWaveCategory (w : DavWave) : DavWaveClassCategory := w.m_waveCategory

/-- The method `DavWave::setGroupId`: overwrites the unit's group id. -/
def DavWave.setGroupId (w : DavWave) (groupId : Nat) : DavWave :=
  { w with m_groupId := groupId }

/-- A lifecycle call on a unit: the unit moves to the status its reaction gives; its
group id and classification stay. -/
def DavWave.call (react : WaveReaction) (w : DavWave) (c : WaveCall) : DavWave :=
  { w with m_status := react c w }

/-- The heap of units, with the sequence of lifecycle calls issued so far (oldest
first). -/
structure Waves where
  wave : WavePtr → DavWave
  calls : List (WavePtr × WaveCall)

/-- The statement `p->setGroupId(groupId)`. -/
def Waves.setGroupId (ws : Waves) (p : WavePtr) (groupId : Nat) : Waves :=
  { ws with wave := fun q => if q = p then (ws.wave p).setGroupId groupId else ws.wave q }

/-- The statement `p->start()` (or `pause`, `resume`, `stop`, `reset`); the status the
call returns is dropped by every caller in this file. -/
def Waves.call (react : WaveReaction) (ws : Waves) (p : WavePtr) (c : WaveCall) : Waves :=
  { wave := fun q => if q = p then (ws.wave p).call react c else ws.wave q
    calls := ws.calls ++ [(p, c)] }

/-! ## Streamlets -/

/-- The fields of the class `DavStreamlet` (the mutex apart). -/
structure DavStreamlet where
  m_streamletTag : DavStreamletTag
  m_streamletGroupId : Nat
  m_davWaves : List WavePtr := []
  m_audioInEntries : List WavePtr := []
  m_audioOutEntries : List WavePtr := []
  m_videoInEntries : List WavePtr := []
  m_videoOutEntries : List WavePtr := []
deriving DecidableEq, Repr

/-- The constructor `DavStreamlet()`; `this` is the address of the new object. -/
def DavStreamlet.new (this : Nat) : DavStreamlet :=
  { m_streamletGroupId := this
    m_streamletTag := DavStreamletTag.new.setTag (toString this) typeid_DavUnknownStreamletTag }

/-- The constructor `DavStreamlet(streamletGroupId)`. -/
def DavStreamlet.ofGroupId (streamletGroupId : Nat) : DavStreamlet :=
  { m_streamletGroupId := streamletGroupId
    m_streamletTag :=
      DavStreamletTag.new.setTag (toString streamletGroupId) typeid_DavUnknownStreamletTag }

/-- The constructor `DavStreamlet(streamletTag)`; `this` is the address of the new
object. -/
def DavStreamlet.ofTag (this : Nat) (streamletTag : DavStreamletTag) : DavStreamlet :=
  { m_streamletGroupId := this, m_streamletTag := streamletTag }

/-- The constructor `DavStreamlet(streamletGroupId, streamletTag)`. -/
def DavStreamlet.ofGroupIdTag (streamletGroupId : Nat) (streamletTag : DavStreamletTag) :
    DavStreamlet :=
  { m_streamletGroupId := streamletGroupId, m_streamletTag := streamletTag }

/-- The loop `for (auto & w : m_davWaves) w->call();` of the lifecycle methods. -/
def DavStreamlet.forward (react : WaveReaction) (self : DavStreamlet) (c : WaveCall)
    (ws : Waves) : Waves :=
  self.m_davWaves.foldl (fun acc w => acc.call react w c) ws

/-- The method `DavStreamlet::start`. -/
def DavStreamlet.start (react : WaveReaction) (self : DavStreamlet) (ws : Waves) : Waves × Int :=
  (self.forward react WaveCall.start ws, 0)

/-- The method `DavStreamlet::pause`. -/
def DavStreamlet.pause (react : WaveReaction) (self : DavStreamlet) (ws : Waves) : Waves × Int :=
  (self.forward react WaveCall.pause ws, 0)

/-- The method `DavStreamlet::resume`. -/
def DavStreamlet.resume (react : WaveReaction) (self : DavStreamlet) (ws : Waves) : Waves × Int :=
  (self.forward react WaveCall.resume ws, 0)

/-- The method `DavStreamlet::stop`. -/
def DavStreamlet.stop (react : WaveReaction) (self : DavStreamlet) (ws : Waves) : Waves × Int :=
  (self.forward react WaveCall.stop ws, 0)

/-- The method `DavStreamlet::reset`. -/
def DavStreamlet.reset (react : WaveReaction) (self : DavStreamlet) (ws : Waves) : Waves × Int :=
  (self.forward react WaveCall.reset ws, 0)

/-- The loop of `DavStreamlet::isStopped`: leaves with false at the first unit that is
not stopped. -/
def DavStreamlet.isStoppedLoop (ws : Waves) : List WavePtr → Bool
  | [] => true
  | w :: rest => if !(ws.wave w).isStopped then false else DavStreamlet.isStoppedLoop ws rest

/-- The method `DavStreamlet::isStopped`. -/
def DavStreamlet.isStopped (self : DavStreamlet) (ws : Waves) : Bool :=
  DavStreamlet.isStoppedLoop ws self.m_davWaves

/-- The method `DavStreamlet::clear`: the new fields and the returned status. -/
def DavStreamlet.clear (self : DavStreamlet) : DavStreamlet × Int :=
  ({ self with
      m_davWaves := []
      m_audioInEntries := []
      m_audioOutEntries := []
      m_videoInEntries := []
      m_videoOutEntries := [] }, 0)

/-- The loop of `DavStreamlet::getErr`: leaves with the message code of the first unit
that has an error. -/
def DavStreamlet.getErrLoop (ws : Waves) : List WavePtr → Int
  | [] => 0
  | w :: rest =>
    if (ws.wave w).hasErr then (ws.wave w).getErr.m_msgCode
    else DavStreamlet.getErrLoop ws rest

/-- The method `DavStreamlet::getErr`. -/
def DavStreamlet.getErr (self : DavStreamlet) (ws : Waves) : Int :=
  DavStreamlet.getErrLoop ws self.m_davWaves

/-- The loop `for (auto & w : m_davWaves) w->setGroupId(m_streamletGroupId);`. -/
def DavStreamlet.stampAll (self : DavStreamlet) (ws : Waves) : Waves :=
  self.m_davWaves.foldl (fun acc w => acc.setGroupId w self.m_streamletGroupId) ws

/-- The method `DavStreamlet::setWaves`. -/
def DavStreamlet.setWaves (self : DavStreamlet) (ws : Waves) (waves : List WavePtr) :
    DavStreamlet × Waves × Int :=
  let self1 := { self with m_davWaves := waves }
  (self1, self1.stampAll ws, 0)

/-- The method `DavStreamlet::addOneWave`. -/
def DavStreamlet.addOneWave (self : DavStreamlet) (ws : Waves) (one : WavePtr) :
    DavStreamlet × Waves × Int :=
  let ws1 := ws.setGroupId one self.m_streamletGroupId
  ({ self with m_davWaves := self.m_davWaves ++ [one] }, ws1, 0)

/-- The method `DavStreamlet::getWaves`. -/
def DavStreamlet.getWaves (self : DavStreamlet) : List WavePtr := self.m_davWaves

/-- The method `DavStreamlet::getWavesByCategory`: the Streamlet after the call and the
list built by the loop. -/
def DavStreamlet.getWavesByCategory (self : DavStreamlet) (ws : Waves)
    (waveCategory : DavWaveClassCategory) : DavStreamlet × List WavePtr :=
  (self, self.m_davWaves.foldl
    (fun waves w =>
      if (ws.wave w).getDavWaveCategory = waveCategory then waves ++ [w] else waves) [])

/-- The method `DavStreamlet::getAudioInEntries`. -/
def DavStreamlet.getAudioInEntries (self : DavStreamlet) : List WavePtr := self.m_audioInEntries
/-- The method `DavStreamlet::getAudioOutEntries`. -/
def DavStreamlet.getAudioOutEntries (self : DavStreamlet) : List WavePtr := self.m_audioOutEntries
/-- The method `DavStreamlet::getVideoInEntries`. -/
def DavStreamlet.getVideoInEntries (self : DavStreamlet) : List WavePtr := self.m_videoInEntries
/-- The method `DavStreamlet::getVideoOutEntries`. -/
def DavStreamlet.getVideoOutEntries (self : DavStreamlet) : List WavePtr := self.m_videoOutEntries

/-- The method `DavStreamlet::setAudioInEntries`. -/
def DavStreamlet.setAudioInEntries (self : DavStreamlet) (waves : List WavePtr) : DavStreamlet :=
  { self with m_audioInEntries := waves }
/-- The method `DavStreamlet::setVideoInEntries`. -/
def DavStreamlet.setVideoInEntries (self : DavStreamlet) (waves : List WavePtr) : DavStreamlet :=
  { self with m_videoInEntries := waves }
/-- The method `DavStreamlet::setAudioOutEntries`. -/
def DavStreamlet.setAudioOutEntries (self : DavStreamlet) (waves : List WavePtr) : DavStreamlet :=
  { self with m_audioOutEntries := waves }
/-- The method `DavStreamlet::setVideoOutEntries`. -/
def DavStreamlet.setVideoOutEntries (self : DavStreamlet) (waves : List WavePtr) : DavStreamlet :=
  { self with m_videoOutEntries := waves }

/-- The method `DavStreamlet::addOneAudioInEntry`. -/
def DavStreamlet.addOneAudioInEntry (self : DavStreamlet) (wave : WavePtr) : DavStreamlet :=
  { self with m_audioInEntries := self.m_audioInEntries ++ [wave] }
/-- The method `DavStreamlet::addOneVideoInEntry`. -/
def DavStreamlet.addOneVideoInEntry (self : DavStreamlet) (wave : WavePtr) : DavStreamlet :=
  { self with m_videoInEntries := self.m_videoInEntries ++ [wave] }
/-- The method `DavStreamlet::addOneAudioOutEntry`. -/
def DavStreamlet.addOneAudioOutEntry (self : DavStreamlet) (wave : WavePtr) : DavStreamlet :=
  { self with m_audioOutEntries := self.m_audioOutEntries ++ [wave] }
/-- The method `DavStreamlet::addOneVideoOutEntry`. -/
def DavStreamlet.addOneVideoOutEntry (self : DavStreamlet) (wave : WavePtr) : DavStreamlet :=
  { self with m_videoOutEntries := self.m_videoOutEntries ++ [wave] }

/-- The method `DavStreamlet::setGroupId`. -/
def DavStreamlet.setGroupId (self : DavStreamlet) (ws : Waves) (streamletGroupId : Nat) :
    DavStreamlet × Waves :=
  let self1 := { self with m_streamletGroupId := streamletGroupId }
  (self1, self1.stampAll ws)

/-- The method `DavStreamlet::getGroupId`. -/
def DavStreamlet.getGroupId (self : DavStreamlet) : Nat := self.m_streamletGroupId

/-- The method `DavStreamlet::setTag`. -/
def DavStreamlet.setTag (self : DavStreamlet) (tag : DavStreamletTag) : DavStreamlet :=
  { self with m_streamletTag := tag }

/-- The method `DavStreamlet::getTag`. -/
def DavStreamlet.getTag (self : DavStreamlet) : DavStreamletTag := self.m_streamletTag

/-- The state-changing operations of one Streamlet. -/
inductive StreamletOp where
  | start
  | pause
  | resume
  | stop
  | reset
  | clear
  | setWaves (waves : List WavePtr)
  | addOneWave (one : WavePtr)
  | setAudioInEntries (waves : List WavePtr)
  | setVideoInEntries (waves : List WavePtr)
  | setAudioOutEntries (waves : List WavePtr)
  | setVideoOutEntries (waves : List WavePtr)
  | addOneAudioInEntry (wave : WavePtr)
  | addOneVideoInEntry (wave : WavePtr)
  | addOneAudioOutEntry (wave : WavePtr)
  | addOneVideoOutEntry (wave : WavePtr)
  | setGroupId (streamletGroupId : Nat)
  | setTag (tag : DavStreamletTag)
deriving DecidableEq, Repr

/-- One operation on a Streamlet: the Streamlet and the heap of units after the call. -/
def DavStreamlet.step (react : WaveReaction) (self : DavStreamlet) (ws : Waves) :
    StreamletOp → DavStreamlet × Waves
  | StreamletOp.start => (self, (self.start react ws).1)
  | StreamletOp.pause => (self, (self.pause react ws).1)
  | StreamletOp.resume => (self, (self.resume react ws).1)
  | StreamletOp.stop => (self, (self.stop react ws).1)
  | StreamletOp.reset => (self, (self.reset react ws).1)
  | StreamletOp.clear => (self.clear.1, ws)
  | StreamletOp.setWaves waves => ((self.setWaves ws waves).1, (self.setWaves ws waves).2.1)
  | StreamletOp.addOneWave one => ((self.addOneWave ws one).1, (self.addOneWave ws one).2.1)
  | StreamletOp.setAudioInEntries waves => (self.setAudioInEntries waves, ws)
  | StreamletOp.setVideoInEntries waves => (self.setVideoInEntries waves, ws)
  | StreamletOp.setAudioOutEntries waves => (self.setAudioOutEntries waves, ws)
  | StreamletOp.setVideoOutEntries waves => (self.setVideoOutEntries waves, ws)
  | StreamletOp.addOneAudioInEntry wave => (self.addOneAudioInEntry wave, ws)
  | StreamletOp.addOneVideoInEntry wave => (self.addOneVideoInEntry wave, ws)
  | StreamletOp.addOneAudioOutEntry wave => (self.addOneAudioOutEntry wave, ws)
  | StreamletOp.addOneVideoOutEntry wave => (self.addOneVideoOutEntry wave, ws)
  | StreamletOp.setGroupId streamletGroupId => self.setGroupId ws streamletGroupId
  | StreamletOp.setTag tag => (self.setTag tag, ws)

/-- A sequence of operations on a Streamlet, first to last. -/
def DavStreamlet.steps (react : WaveReaction) (self : DavStreamlet) (ws : Waves) :
    List StreamletOp → DavStreamlet × Waves
  | [] => (self, ws)
  | op :: rest =>
    DavStreamlet.steps react (self.step react ws op).1 (self.step react ws op).2 rest

/-- Every unit of the unit list carries the group id of the Streamlet. -/
def DavStreamlet.groupIdInSync (self : DavStreamlet) (ws : Waves) : Prop :=
  ∀ u ∈ self.m_davWaves, (ws.wave u).m_groupId = self.m_streamletGroupId

instance (self : DavStreamlet) (ws : Waves) : Decidable (self.groupIdInSync ws) := by
  unfold DavStreamlet.groupIdInSync
  infer_instance

/-! ## The map of the River -/

/-- The entries of a `std::map<DavStreamletTag, shared_ptr<DavStreamlet>>`, in
iteration order. -/
abbrev RiverEntries := List (DavStreamletTag × StreamletPtr)

/-- Two keys are the same key of a `std::map` when neither is less than the other. -/
def keyEquiv (a b : DavStreamletTag) : Bool :=
  !operator_lt a b && !operator_lt b a

/-- The exception `std::out_of_range` of `std::map::at`. -/
inductive StdException where
  | out_of_range
deriving DecidableEq, Repr

deriving instance DecidableEq for Except

/-- The result of `std::map::count`: 1 when the key is present, else 0. -/
def map_count (m : RiverEntries) (k : DavStreamletTag) : Nat :=
  if m.any (fun e => keyEquiv e.1 k) then 1 else 0

/-- The result of `std::map::at`: the value stored under the key, or the exception. -/
def map_at (m : RiverEntries) (k : DavStreamletTag) : Except StdException StreamletPtr :=
  match m.find? (fun e => keyEquiv e.1 k) with
  | some e => Except.ok e.2
  | none => Except.error StdException.out_of_range

/-- Places a new entry before the first entry with a greater key. -/
def map_insertSorted (k : DavStreamletTag) (v : StreamletPtr) : RiverEntries → RiverEntries
  | [] => [(k, v)]
  | e :: rest =>
    if operator_lt k e.1 then (k, v) :: e :: rest else e :: map_insertSorted k v rest

/-- The effect of `std::map::emplace`: inserts the entry if the map has no entry with
that key, and changes nothing otherwise. -/
def map_emplace (m : RiverEntries) (k : DavStreamletTag) (v : StreamletPtr) : RiverEntries :=
  if map_count m k = 0 then map_insertSorted k v m else m

/-- The effect of `std::map::erase(key)`. -/
def map_erase (m : RiverEntries) (k : DavStreamletTag) : RiverEntries :=
  m.filter (fun e => !keyEquiv e.1 k)

/-- The entries are in strictly ascending key order, as a `std::map` keeps them. -/
def map_sorted (m : RiverEntries) : Prop :=
  m.Pairwise (fun a b => operator_lt a.1 b.1 = true)

instance (m : RiverEntries) : Decidable (map_sorted m) := by
  unfold map_sorted
  infer_instance

/-! ## The River -/

/-- The fields of the class `DavRiver` (the mutex apart). -/
structure DavRiver where
  m_river : RiverEntries := []
deriving DecidableEq, Repr

/-- The heap of Streamlets and of units, and the lines written to the INFO log (each
line is the tag that was streamed, followed by `started`). -/
structure World where
  streamlet : StreamletPtr → DavStreamlet
  waves : Waves
  log : List DavStreamletTag

/-- The method `DavRiver::init`. -/
def DavRiver.init (self : DavRiver) (w : World) (streamlets : List StreamletPtr) :
    DavRiver × Int :=
  ({ m_river := streamlets.foldl (fun m s => map_emplace m (w.streamlet s).getTag s)
      self.m_river }, 0)

/-- The constructor `DavRiver(streamlets)`. -/
def DavRiver.ofStreamlets (w : World) (streamlets : List StreamletPtr) : DavRiver :=
  (DavRiver.init {} w streamlets).1

/-- The method `DavRiver::add`. -/
def DavRiver.add (self : DavRiver) (w : World) (streamlet : StreamletPtr) : DavRiver × Int :=
  ({ m_river := map_emplace self.m_river (w.streamlet streamlet).getTag streamlet }, 0)

/-- The method `DavRiver::get`: the River after the call, and the pointer returned
(`none` is the empty `shared_ptr`) or the exception thrown. -/
def DavRiver.get (self : DavRiver) (streamletTag : DavStreamletTag) :
    DavRiver × Except StdException (Option StreamletPtr) :=
  if map_count self.m_river streamletTag = 0 then (self, Except.ok none)
  else (self, (map_at self.m_river streamletTag).map some)

/-- The method `DavRiver::getStreamlets`. -/
def DavRiver.getStreamlets (self : DavRiver) : List StreamletPtr :=
  self.m_river.foldl (fun streamlets r => streamlets ++ [r.2]) []

/-- The method `DavRiver::getStreamletsByCategory`. -/
def DavRiver.getStreamletsByCategory (self : DavRiver) (tag : DavStreamletTag) :
    List StreamletPtr :=
  self.m_river.foldl
    (fun streamlets r =>
      if r.1.m_streamletCategory = tag.m_streamletCategory then streamlets ++ [r.2]
      else streamlets) []

/-- The method `DavRiver::count`. -/
def DavRiver.count (self : DavRiver) (streamletTag : DavStreamletTag) : Nat :=
  map_count self.m_river streamletTag

/-- The method `DavRiver::erase`. -/
def DavRiver.erase (self : DavRiver) (streamletTag : DavStreamletTag) : DavRiver × Int :=
  ({ m_river := map_erase self.m_river streamletTag }, 0)

/-- The method `DavRiver::clear`. -/
def DavRiver.clear (_self : DavRiver) : DavRiver × Int :=
  ({ m_river := [] }, 0)

/-- The method `DavRiver::start`: each Streamlet is logged and then started. -/
def DavRiver.start (react : WaveReaction) (self : DavRiver) (w : World) : World :=
  self.m_river.foldl
    (fun acc s =>
      { acc with
        log := acc.log ++ [s.1]
        waves := ((acc.streamlet s.2).start react acc.waves).1 }) w

/-- The method `DavRiver::stop`. -/
def DavRiver.stop (react : WaveReaction) (self : DavRiver) (w : World) : World :=
  self.m_river.foldl
    (fun acc s => { acc with waves := ((acc.streamlet s.2).stop react acc.waves).1 }) w

/-- The loop of `DavRiver::isStopped`: leaves with false at the first Streamlet that is
not stopped. -/
def DavRiver.isStoppedLoop (w : World) : RiverEntries → Bool
  | [] => true
  | s :: rest =>
    if !(w.streamlet s.2).isStopped w.waves then false else DavRiver.isStoppedLoop w rest

/-- The method `DavRiver::isStopped`. -/
def DavRiver.isStopped (self : DavRiver) (w : World) : Bool :=
  DavRiver.isStoppedLoop w self.m_river

/-- The loop of `DavRiver::getErr`: leaves with the first Streamlet error code that is
negative. -/
def DavRiver.getErrLoop (w : World) : RiverEntries → Int
  | [] => 0
  | s :: rest =>
    let ret := (w.streamlet s.2).getErr w.waves
    if ret < 0 then ret else DavRiver.getErrLoop w rest

/-- The method `DavRiver::getErr`. -/
def DavRiver.getErr (self : DavRiver) (w : World) : Int :=
  DavRiver.getErrLoop w self.m_river

/-- The number of entries of the River (`m_river.size()`). -/
def DavRiver.size (self : DavRiver) : Nat := self.m_river.length

/-- The invariant of the map of the River: strictly ascending keys. -/
def DavRiver.sorted (self : DavRiver) : Prop := map_sorted self.m_river

instance (self : DavRiver) : Decidable self.sorted := by
  unfold DavRiver.sorted
  infer_instance

/-! ## Example states -/

/-- A heap of units in which every unit is running, has no error and carries the group
id 0. -/
def exampleWaves : Waves :=
  { wave := fun _ =>
      { m_groupId := 0, m_waveCategory := 0,
        m_status := { isStopped := false, hasErr := false, getErr := { m_msgCode := 0 } } }
    calls := [] }

/-- A world in which every Streamlet carries the same tag: the name `a` in the unknown
category. -/
def sameTagWorld : World :=
  { streamlet := fun p => DavStreamlet.ofGroupIdTag p (DavUnknownStreamletTag.named "a")
    waves := exampleWaves
    log := [] }

/-- The River that holds the Streamlet at address 1 of `sameTagWorld`. -/
def sameTagRiver : DavRiver := (DavRiver.add {} sameTagWorld 1).1


/-- A heap of units in which unit 1 reports the error code 5, unit 3 reports the error
code -3, and every other unit reports no error; no unit is stopped. -/
def errWaves : Waves :=
  { wave := fun p =>
      { m_groupId := 0, m_waveCategory := 0,
        m_status :=
          { isStopped := false
            hasErr := decide (p = 1 ∨ p = 3)
            getErr := { m_msgCode := if p = 1 then 5 else if p = 3 then -3 else 0 } } }
    calls := [] }

/-- A world over `errWaves`: the Streamlet at address 1 is tagged `in` (default input)
and has the units 1 and 2, the Streamlet at address 2 is tagged `out` (default output)
and has the unit 3; every other Streamlet is freshly constructed. -/
def errWorld : World :=
  { streamlet := fun p =>
      if p = 1 then
        { DavStreamlet.ofGroupIdTag 1 (DavDefaultInputStreamletTag.named "in") with
          m_davWaves := [1, 2] }
      else if p = 2 then
        { DavStreamlet.ofGroupIdTag 2 (DavDefaultOutputStreamletTag.named "out") with
          m_davWaves := [3] }
      else DavStreamlet.new p
    waves := errWaves
    log := [] }

/-- A reaction of units: `start` makes a unit report not stopped, `stop` makes it report
stopped, the other calls leave its status. -/
def runReaction : WaveReaction := fun c w =>
  match c with
  | WaveCall.start => { w.m_status with isStopped := false }
  | WaveCall.stop => { w.m_status with isStopped := true }
  | _ => w.m_status

/-- A heap of units in which every unit is stopped and has no error. -/
def stoppedWaves : Waves :=
  { wave := fun _ =>
      { m_groupId := 0, m_waveCategory := 0,
        m_status := { isStopped := true, hasErr := false, getErr := { m_msgCode := 0 } } }
    calls := [] }

/-- The Streamlets of `errWorld` over `stoppedWaves`. -/
def stoppedWorld : World :=
  { errWorld with waves := stoppedWaves }

/-! ## The dump, and sequences of River operations -/

/-- The method `DavStreamletTag::dumpTag`. The text that `std::type_index::name`
returns is implementation defined and is taken as the parameter `typeName`. -/
def DavStreamletTag.dumpTag (typeName : type_index → String) (self : DavStreamletTag) :
    String :=
  "[streamletName: " ++ self.m_streamletName ++ ", category: " ++
    typeName self.m_streamletCategory ++ "]"

/-- The method `DavRiver::dumpRiver`. -/
def DavRiver.dumpRiver (typeName : type_index → String) (self : DavRiver) : String :=
  self.m_river.foldl (fun dumpStr s => (dumpStr ++ s.1.dumpTag typeName) ++ "\n") ""

/-- The operations that change the entries of a River. -/
inductive RiverOp where
  | init (streamlets : List StreamletPtr)
  | add (streamlet : StreamletPtr)
  | erase (streamletTag : DavStreamletTag)
  | clear
deriving DecidableEq, Repr

/-- One operation on a River, in the world in which it is called. -/
def DavRiver.step (self : DavRiver) (w : World) : RiverOp → DavRiver
  | RiverOp.init streamlets => (self.init w streamlets).1
  | RiverOp.add streamlet => (self.add w streamlet).1
  | RiverOp.erase streamletTag => (self.erase streamletTag).1
  | RiverOp.clear => self.clear.1

/-- A sequence of operations on a River, first to last, each with the world in which it
is called (between two operations the Streamlets may have been changed by their owner). -/
def DavRiver.run (self : DavRiver) : List (World × RiverOp) → DavRiver
  | [] => self
  | x :: rest => DavRiver.run (self.step x.1 x.2) rest

/-- The Streamlets that an operation hands to the River. -/
def RiverOp.inserted : RiverOp → List StreamletPtr
  | RiverOp.init streamlets => streamlets
  | RiverOp.add streamlet => [streamlet]
  | RiverOp.erase _ => []
  | RiverOp.clear => []

/-- Every key of the River is the tag that its Streamlet has now. -/
def DavRiver.keysAreTags (self : DavRiver) (w : World) : Prop :=
  ∀ e ∈ self.m_river, e.1 = (w.streamlet e.2).getTag

instance (self : DavRiver) (w : World) : Decidable (self.keysAreTags w) := by
  unfold DavRiver.keysAreTags
  infer_instance

/-- The statement `p->setTag(tag)` on a Streamlet of the heap. -/
def World.setTag (w : World) (p : StreamletPtr) (tag : DavStreamletTag) : World :=
  { w with streamlet := fun q => if q = p then (w.streamlet p).setTag tag else w.streamlet q }

/-- A heap of units in which the units 1 and 3 have the classification 7 and every other
unit has the classification 0. -/
def categoryWaves : Waves :=
  { wave := fun p =>
      { m_groupId := 0, m_waveCategory := if p = 1 ∨ p = 3 then 7 else 0,
        m_status := { isStopped := true, hasErr := false, getErr := { m_msgCode := 0 } } }
    calls := [] }

/-- A world in which every Streamlet is freshly constructed without a tag. -/
def untaggedWorld : World :=
  { streamlet := fun p => DavStreamlet.new p
    waves := exampleWaves
    log := [] }

/-! ## The order of tags -/

theorem toList_inj {a b : String} (h : a.toList = b.toList) : a = b := by
  cases a; cases b; simp_all

theorem operator_lt_iff (l r : DavStreamletTag) :
    operator_lt l r = true ↔
      l.m_streamletName.toList < r.m_streamletName.toList ∨
        (l.m_streamletName = r.m_streamletName ∧ l.m_streamletCategory < r.m_streamletCategory) := by
  unfold operator_lt
  constructor
  · intro h
    split at h
    · left; assumption
    · split at h
      · simp at h
      · right
        rename_i h1 h2
        refine ⟨toList_inj ?_, by simpa using h⟩
        rcases lt_trichotomy l.m_streamletName.toList r.m_streamletName.toList with h3 | h3 | h3
        · exact absurd h3 h1
        · exact h3
        · exact absurd h3 h2
  · rintro (h | ⟨h1, h2⟩)
    · rw [if_pos h]
    · rw [h1, if_neg (lt_irrefl _), if_neg (lt_irrefl _)]
      exact decide_eq_true h2

theorem operator_lt_irrefl (a : DavStreamletTag) : operator_lt a a = false := by
  cases h : operator_lt a a
  · rfl
  · rw [operator_lt_iff] at h
    rcases h with h | ⟨_, h⟩
    · exact absurd h (lt_irrefl _)
    · exact absurd h (lt_irrefl _)

theorem operator_lt_trans {a b c : DavStreamletTag} (h1 : operator_lt a b = true)
    (h2 : operator_lt b c = true) : operator_lt a c = true := by
  rw [operator_lt_iff] at *
  rcases h1 with h1 | ⟨e1, h1⟩
  · rcases h2 with h2 | ⟨e2, _⟩
    · left; exact lt_trans h1 h2
    · left; rw [← e2]; exact h1
  · rcases h2 with h2 | ⟨e2, h2⟩
    · left; rw [e1]; exact h2
    · right; exact ⟨e1.trans e2, lt_trans h1 h2⟩

theorem operator_lt_asymm {a b : DavStreamletTag} (h : operator_lt a b = true) :
    operator_lt b a = false := by
  cases h2 : operator_lt b a
  · rfl
  · have h3 := operator_lt_trans h h2
    rw [operator_lt_irrefl] at h3
    exact absurd h3 (by simp)

theorem operator_lt_total (a b : DavStreamletTag) :
    operator_lt a b = true ∨ a = b ∨ operator_lt b a = true := by
  rw [operator_lt_iff, operator_lt_iff]
  rcases lt_trichotomy a.m_streamletName.toList b.m_streamletName.toList with h | h | h
  · left; left; exact h
  · have hn := toList_inj h
    rcases lt_trichotomy a.m_streamletCategory b.m_streamletCategory with h2 | h2 | h2
    · left; right; exact ⟨hn, h2⟩
    · right; left
      cases a; cases b; simp_all
    · right; right; right; exact ⟨hn.symm, h2⟩
  · right; right; left; exact h

theorem keyEquiv_iff_eq (a b : DavStreamletTag) : keyEquiv a b = true ↔ a = b := by
  unfold keyEquiv
  constructor
  · intro h
    simp only [Bool.and_eq_true, Bool.not_eq_true'] at h
    rcases operator_lt_total a b with h1 | h1 | h1
    · rw [h.1] at h1; exact absurd h1 (by simp)
    · exact h1
    · rw [h.2] at h1; exact absurd h1 (by simp)
  · rintro rfl
    simp [operator_lt_irrefl]


/-! ## The map -/

theorem map_count_eq_zero_iff (m : RiverEntries) (k : DavStreamletTag) :
    map_count m k = 0 ↔ ∀ e ∈ m, e.1 ≠ k := by
  unfold map_count
  split
  · rename_i h
    simp only [List.any_eq_true] at h
    obtain ⟨e, he, hk⟩ := h
    constructor
    · intro h0; exact absurd h0 (by decide)
    · intro hall; exact absurd ((keyEquiv_iff_eq _ _).1 hk) (hall e he)
  · rename_i h
    simp only [List.any_eq_true, not_exists, not_and] at h
    constructor
    · intro _ e he hk
      exact h e he ((keyEquiv_iff_eq _ _).2 hk)
    · intro _; rfl

theorem map_count_eq_one_iff (m : RiverEntries) (k : DavStreamletTag) :
    map_count m k = 1 ↔ ∃ e ∈ m, e.1 = k := by
  constructor
  · intro h
    by_contra hne
    have : map_count m k = 0 := (map_count_eq_zero_iff m k).2 (by
      intro e he hk; exact hne ⟨e, he, hk⟩)
    omega
  · rintro ⟨e, he, hk⟩
    unfold map_count
    rw [if_pos]
    simp only [List.any_eq_true]
    exact ⟨e, he, (keyEquiv_iff_eq _ _).2 hk⟩

theorem map_count_le_one (m : RiverEntries) (k : DavStreamletTag) :
    map_count m k = 0 ∨ map_count m k = 1 := by
  unfold map_count
  split
  · right; rfl
  · left; rfl

/-- The value found under a key: the first entry whose key is that key. -/
theorem map_at_eq (m : RiverEntries) (k : DavStreamletTag) :
    map_at m k =
      match m.find? (fun e => decide (e.1 = k)) with
      | some e => Except.ok e.2
      | none => Except.error StdException.out_of_range := by
  unfold map_at
  have : (fun e : DavStreamletTag × StreamletPtr => keyEquiv e.1 k) =
      (fun e => decide (e.1 = k)) := by
    funext e
    by_cases h : e.1 = k
    · simp [h, (keyEquiv_iff_eq k k).2 rfl]
    · have : keyEquiv e.1 k = false := by
        cases hk : keyEquiv e.1 k
        · rfl
        · exact absurd ((keyEquiv_iff_eq _ _).1 hk) h
      simp [h, this]
  rw [this]

theorem DavRiver.get_eq (r : DavRiver) (t : DavStreamletTag) :
    (r.get t).2 = Except.ok ((r.m_river.find? (fun e => decide (e.1 = t))).map Prod.snd) := by
  unfold DavRiver.get
  split
  · rename_i h
    rw [map_count_eq_zero_iff] at h
    have : r.m_river.find? (fun e => decide (e.1 = t)) = none := by
      rw [List.find?_eq_none]
      intro e he
      simpa using h e he
    rw [this]; rfl
  · rename_i h
    rcases map_count_le_one r.m_river t with h0 | h1
    · exact absurd h0 h
    · rw [map_count_eq_one_iff] at h1
      obtain ⟨e, he, hk⟩ := h1
      rw [map_at_eq]
      cases hf : r.m_river.find? (fun e => decide (e.1 = t)) with
      | none =>
        rw [List.find?_eq_none] at hf
        exact absurd hk (by simpa using hf e he)
      | some e2 => rfl

theorem map_insertSorted_length (k : DavStreamletTag) (v : StreamletPtr) (m : RiverEntries) :
    (map_insertSorted k v m).length = m.length + 1 := by
  induction m with
  | nil => rfl
  | cons e rest ih =>
    unfold map_insertSorted
    split
    · rfl
    · simp [ih]

theorem map_insertSorted_find_other (k t : DavStreamletTag) (v : StreamletPtr) (m : RiverEntries)
    (h : k ≠ t) :
    (map_insertSorted k v m).find? (fun e => decide (e.1 = t)) =
      m.find? (fun e => decide (e.1 = t)) := by
  induction m with
  | nil => simp [map_insertSorted, h]
  | cons e rest ih =>
    unfold map_insertSorted
    split
    · simp [List.find?_cons, h]
    · simp only [List.find?_cons, ih]

theorem map_insertSorted_find_self (k : DavStreamletTag) (v : StreamletPtr) (m : RiverEntries)
    (h : ∀ e ∈ m, e.1 ≠ k) :
    (map_insertSorted k v m).find? (fun e => decide (e.1 = k)) = some (k, v) := by
  induction m with
  | nil => simp [map_insertSorted]
  | cons e rest ih =>
    have he : e.1 ≠ k := h e (List.mem_cons_self _ _)
    have hrest : ∀ e ∈ rest, e.1 ≠ k := fun x hx => h x (List.mem_cons_of_mem _ hx)
    unfold map_insertSorted
    split
    · simp [List.find?_cons]
    · simp [List.find?_cons, he, ih hrest]

/-- Looking a key up after `emplace`: an entry that was there stays; the new entry is
found only when its key was absent. -/
theorem map_emplace_find (m : RiverEntries) (k t : DavStreamletTag) (v : StreamletPtr) :
    ((map_emplace m k v).find? (fun e => decide (e.1 = t))).map Prod.snd =
      ((m.find? (fun e => decide (e.1 = t))).map Prod.snd).orElse
        (fun _ => if k = t then some v else none) := by
  unfold map_emplace
  split
  · rename_i h0
    rw [map_count_eq_zero_iff] at h0
    by_cases hkt : k = t
    · subst hkt
      rw [map_insertSorted_find_self k v m h0]
      have : m.find? (fun e => decide (e.1 = k)) = none := by
        rw [List.find?_eq_none]
        intro e he
        simpa using h0 e he
      simp [this]
    · rw [map_insertSorted_find_other k t v m hkt]
      simp [hkt]
  · rename_i h0
    by_cases hkt : k = t
    · subst hkt
      rcases map_count_le_one m k with h | h
      · exact absurd h h0
      · rw [map_count_eq_one_iff] at h
        obtain ⟨e, he, hk⟩ := h
        cases hf : m.find? (fun e => decide (e.1 = k)) with
        | none =>
          rw [List.find?_eq_none] at hf
          exact absurd hk (by simpa using hf e he)
        | some e2 => simp
    · simp [hkt]

theorem map_init_find (w : World) (l : List StreamletPtr) (m : RiverEntries)
    (t : DavStreamletTag) :
    ((l.foldl (fun m s => map_emplace m (w.streamlet s).getTag s) m).find?
        (fun e => decide (e.1 = t))).map Prod.snd =
      ((m.find? (fun e => decide (e.1 = t))).map Prod.snd).orElse
        (fun _ => l.find? (fun p => decide ((w.streamlet p).getTag = t))) := by
  induction l generalizing m with
  | nil => simp
  | cons s rest ih =>
    rw [List.foldl_cons, ih, map_emplace_find]
    cases hm : (m.find? (fun e => decide (e.1 = t))).map Prod.snd with
    | some p => simp
    | none =>
      by_cases hs : (w.streamlet s).getTag = t
      · simp [hs, List.find?_cons]
      · simp [hs, List.find?_cons]


theorem map_sorted_find (m : RiverEntries) (t : DavStreamletTag) (p : StreamletPtr)
    (hs : map_sorted m) (hm : (t, p) ∈ m) :
    m.find? (fun e => decide (e.1 = t)) = some (t, p) := by
  induction m with
  | nil => simp at hm
  | cons e rest ih =>
    unfold map_sorted at hs
    rw [List.pairwise_cons] at hs
    rcases List.mem_cons.1 hm with h | h
    · subst h
      simp [List.find?_cons]
    · have hlt := hs.1 (t, p) h
      have hne : e.1 ≠ t := by
        intro heq
        rw [heq] at hlt
        simp only [operator_lt_irrefl] at hlt
        exact absurd hlt (by decide)
      simp only [List.find?_cons, hne, decide_False]
      exact ih hs.2 h

/-! ## The map stays sorted -/

theorem map_insertSorted_mem (k : DavStreamletTag) (v : StreamletPtr) (m : RiverEntries)
    (x : DavStreamletTag × StreamletPtr) :
    x ∈ map_insertSorted k v m ↔ x = (k, v) ∨ x ∈ m := by
  induction m with
  | nil => simp [map_insertSorted]
  | cons e rest ih =>
    unfold map_insertSorted
    split
    · simp
    · simp only [List.mem_cons, ih]
      tauto

theorem map_insertSorted_sorted (k : DavStreamletTag) (v : StreamletPtr) (m : RiverEntries)
    (hs : map_sorted m) (hk : ∀ e ∈ m, e.1 ≠ k) : map_sorted (map_insertSorted k v m) := by
  induction m with
  | nil => simp [map_insertSorted, map_sorted]
  | cons e rest ih =>
    unfold map_sorted at hs
    rw [List.pairwise_cons] at hs
    unfold map_insertSorted
    split
    · rename_i hlt
      unfold map_sorted
      rw [List.pairwise_cons, List.pairwise_cons]
      refine ⟨?_, hs⟩
      intro x hx
      rcases List.mem_cons.1 hx with h | h
      · rw [h]; exact hlt
      · exact operator_lt_trans hlt (hs.1 x h)
    · rename_i hlt
      have hek : operator_lt e.1 k = true := by
        rcases operator_lt_total e.1 k with h | h | h
        · exact h
        · exact absurd h (hk e (List.mem_cons_self _ _))
        · exact absurd h hlt
      unfold map_sorted
      rw [List.pairwise_cons]
      refine ⟨?_, ih hs.2 (fun x hx => hk x (List.mem_cons_of_mem _ hx))⟩
      intro x hx
      rcases (map_insertSorted_mem k v rest x).1 hx with h | h
      · rw [h]; exact hek
      · exact hs.1 x h

theorem map_emplace_sorted (m : RiverEntries) (k : DavStreamletTag) (v : StreamletPtr)
    (hs : map_sorted m) : map_sorted (map_emplace m k v) := by
  unfold map_emplace
  split
  · rename_i h0
    exact map_insertSorted_sorted k v m hs ((map_count_eq_zero_iff m k).1 h0)
  · exact hs

theorem map_erase_sorted (m : RiverEntries) (k : DavStreamletTag) (hs : map_sorted m) :
    map_sorted (map_erase m k) :=
  List.Pairwise.sublist (List.filter_sublist _) hs

theorem DavRiver.add_sorted (r : DavRiver) (w : World) (s : StreamletPtr) (hs : r.sorted) :
    (r.add w s).1.sorted :=
  map_emplace_sorted r.m_river _ s hs

theorem DavRiver.init_sorted (r : DavRiver) (w : World) (l : List StreamletPtr)
    (hs : r.sorted) : (r.init w l).1.sorted := by
  unfold DavRiver.sorted DavRiver.init
  simp only
  have : ∀ (m : RiverEntries), map_sorted m →
      map_sorted (l.foldl (fun m s => map_emplace m (w.streamlet s).getTag s) m) := by
    induction l with
    | nil => intro m hm; exact hm
    | cons s rest ih =>
      intro m hm
      rw [List.foldl_cons]
      exact ih _ (map_emplace_sorted m _ s hm)
  exact this r.m_river hs

theorem DavRiver.erase_sorted (r : DavRiver) (t : DavStreamletTag) (hs : r.sorted) :
    (r.erase t).1.sorted :=
  map_erase_sorted r.m_river t hs

theorem DavRiver.clear_sorted (r : DavRiver) : r.clear.1.sorted := by
  simp [DavRiver.sorted, DavRiver.clear, map_sorted]

theorem DavRiver.empty_sorted : DavRiver.sorted {} := by
  simp [DavRiver.sorted, map_sorted]
/-! ## C1 -/

/-- C1, as stated, fails: in a River that holds the Streamlet at address 1 under the tag
`a`, adding the Streamlet at address 2 with the same tag keeps one entry, but `get`
returns the Streamlet stored before (address 1) and not the added one; likewise `init`
on the list of both keeps the first of them. -/
theorem C1_add_does_not_replace :
    sameTagRiver.count (sameTagWorld.streamlet 2).getTag = 1 ∧
      (sameTagRiver.add sameTagWorld 2).1.size = sameTagRiver.size ∧
      ((sameTagRiver.add sameTagWorld 2).1.get (sameTagWorld.streamlet 2).getTag).2 =
        Except.ok (some 1) ∧
      ((sameTagRiver.add sameTagWorld 2).1.get (sameTagWorld.streamlet 2).getTag).2 ≠
        Except.ok (some 2) ∧
      (((DavRiver.init {} sameTagWorld [1, 2]).1.get (sameTagWorld.streamlet 2).getTag).2 ≠
        Except.ok (some 2)) := by
  decide


/-- C1 (amended): `add` of a Streamlet whose tag is already a key leaves the River as it
was, so the number of entries is unchanged and `get` of that tag still returns the
Streamlet stored before. `init` follows the same first-write-wins rule: a key that was
present keeps its Streamlet, a key that was absent gets the first Streamlet of the list
that has this tag; so `init` of an empty River on two Streamlets with one tag stores one
entry, holding the first of the two. -/
theorem C1_add_keeps_existing_entry (r : DavRiver) (w : World) :
    (∀ s : StreamletPtr, r.count (w.streamlet s).getTag = 1 →
      (r.add w s).1 = r ∧ (r.add w s).1.size = r.size ∧
        ((r.add w s).1.get (w.streamlet s).getTag).2 = (r.get (w.streamlet s).getTag).2 ∧
        ∃ old, ((w.streamlet s).getTag, old) ∈ r.m_river ∧
          ((r.add w s).1.get (w.streamlet s).getTag).2 = Except.ok (some old)) ∧
      (∀ (l : List StreamletPtr) (t : DavStreamletTag) (p : StreamletPtr),
        (r.get t).2 = Except.ok (some p) → ((r.init w l).1.get t).2 = Except.ok (some p)) ∧
      (∀ (l : List StreamletPtr) (t : DavStreamletTag),
        (r.get t).2 = Except.ok none →
          ((r.init w l).1.get t).2 =
            Except.ok (l.find? (fun p => decide ((w.streamlet p).getTag = t)))) ∧
      (∀ s1 s2 : StreamletPtr, (w.streamlet s1).getTag = (w.streamlet s2).getTag →
        (DavRiver.init {} w [s1, s2]).1.size = 1 ∧
          ((DavRiver.init {} w [s1, s2]).1.get (w.streamlet s2).getTag).2 =
            Except.ok (some s1)) := by
  refine ⟨?_, ?_, ?_, ?_⟩
  · intro s h
    have hadd : (r.add w s).1 = r := by
      unfold DavRiver.count at h
      simp [DavRiver.add, map_emplace, h]
    rw [hadd]
    refine ⟨rfl, rfl, rfl, ?_⟩
    unfold DavRiver.count at h
    rw [map_count_eq_one_iff] at h
    obtain ⟨e, he, hk⟩ := h
    rw [DavRiver.get_eq]
    cases hf : r.m_river.find? (fun e => decide (e.1 = (w.streamlet s).getTag)) with
    | none =>
      rw [List.find?_eq_none] at hf
      exact absurd hk (by simpa using hf e he)
    | some e2 =>
      have h1 := List.mem_of_find?_eq_some hf
      have h2 := List.find?_some hf
      simp only [decide_eq_true_eq] at h2
      refine ⟨e2.2, ?_, rfl⟩
      rw [← h2]
      exact h1
  · intro l t p h
    rw [DavRiver.get_eq] at h ⊢
    simp only [DavRiver.init]
    rw [map_init_find]
    simp only [Except.ok.injEq] at h
    rw [h]
    rfl
  · intro l t h
    rw [DavRiver.get_eq] at h ⊢
    simp only [DavRiver.init]
    rw [map_init_find]
    simp only [Except.ok.injEq] at h
    rw [h]
    rfl
  · intro s1 s2 h
    constructor
    · simp [DavRiver.init, DavRiver.size, map_emplace, map_count, map_insertSorted, h,
        (keyEquiv_iff_eq _ _).2 rfl]
    · rw [DavRiver.get_eq]
      simp only [DavRiver.init]
      rw [map_init_find]
      simp [List.find?_cons, h]

/-- Witness of C1 (amended): adding the Streamlet at address 2 to `sameTagRiver`, whose
only key is the tag of that Streamlet, leaves the River as it was. -/
theorem C1_add_keeps_existing_entry_witness :
    sameTagRiver.count (sameTagWorld.streamlet 2).getTag = 1 ∧
      (sameTagRiver.add sameTagWorld 2).1 = sameTagRiver :=
  ⟨by decide, ((C1_add_keeps_existing_entry sameTagRiver sameTagWorld).1 2 (by decide)).1⟩

/-! ## C2 -/

/-- C2: for all tags `a` and `b`, `operator==` holds exactly when neither `a < b` nor
`b < a`; equality is name equal and category equal, the order compares names first and
categories on equal names; so two tags with one name and different categories are
different keys of the map, and both can be stored. -/
theorem C2_equality_iff_neither_less (a b : DavStreamletTag) :
    (operator_eq a b = true ↔ (operator_lt a b = false ∧ operator_lt b a = false)) ∧
      (operator_eq a b = true ↔
        (a.m_streamletName = b.m_streamletName ∧
          a.m_streamletCategory = b.m_streamletCategory)) ∧
      (operator_lt a b = true ↔
        (a.m_streamletName.toList < b.m_streamletName.toList ∨
          (a.m_streamletName = b.m_streamletName ∧
            a.m_streamletCategory < b.m_streamletCategory))) ∧
      (a.m_streamletName = b.m_streamletName →
        a.m_streamletCategory ≠ b.m_streamletCategory →
          keyEquiv a b = false ∧ (operator_lt a b = true ∨ operator_lt b a = true) ∧
            ∀ v1 v2 : StreamletPtr,
              (map_emplace (map_emplace [] a v1) b v2).length = 2 ∧
                map_count (map_emplace (map_emplace [] a v1) b v2) a = 1 ∧
                map_count (map_emplace (map_emplace [] a v1) b v2) b = 1) := by
  have heq : operator_eq a b = true ↔
      (a.m_streamletName = b.m_streamletName ∧
        a.m_streamletCategory = b.m_streamletCategory) := by
    simp [operator_eq]
  have heq2 : operator_eq a b = true ↔ a = b := by
    rw [heq]
    constructor
    · intro h; cases a; cases b; simp_all
    · rintro rfl; exact ⟨rfl, rfl⟩
  refine ⟨?_, heq, operator_lt_iff a b, ?_⟩
  · rw [heq2, ← keyEquiv_iff_eq]
    simp [keyEquiv]
  · intro hn hc
    have hab : a ≠ b := fun h => hc (by rw [h])
    have hk : keyEquiv a b = false := by
      cases hk : keyEquiv a b
      · rfl
      · exact absurd ((keyEquiv_iff_eq _ _).1 hk) hab
    refine ⟨hk, ?_, ?_⟩
    · rcases operator_lt_total a b with h | h | h
      · exact Or.inl h
      · exact absurd h hab
      · exact Or.inr h
    · intro v1 v2
      have h1 : map_emplace [] a v1 = [(a, v1)] := by
        simp [map_emplace, map_count, map_insertSorted]
      have h0 : map_count [(a, v1)] b = 0 := by
        rw [map_count_eq_zero_iff]
        intro e he
        simp only [List.mem_singleton] at he
        rw [he]; exact hab
      rw [h1]
      refine ⟨?_, ?_, ?_⟩
      · simp [map_emplace, h0, map_insertSorted_length]
      · rw [map_count_eq_one_iff]
        refine ⟨(a, v1), ?_, rfl⟩
        simp only [map_emplace, h0, if_true]
        unfold map_insertSorted
        split <;> simp [map_insertSorted]
      · rw [map_count_eq_one_iff]
        refine ⟨(b, v2), ?_, rfl⟩
        simp only [map_emplace, h0, if_true]
        unfold map_insertSorted
        split <;> simp [map_insertSorted]

/-- Witness of C2: the default-input tag and the default-output tag of the name `x` are
different keys. -/
theorem C2_equality_iff_neither_less_witness :
    (DavDefaultInputStreamletTag.named "x").m_streamletName =
        (DavDefaultOutputStreamletTag.named "x").m_streamletName ∧
      (DavDefaultInputStreamletTag.named "x").m_streamletCategory ≠
        (DavDefaultOutputStreamletTag.named "x").m_streamletCategory ∧
      keyEquiv (DavDefaultInputStreamletTag.named "x")
        (DavDefaultOutputStreamletTag.named "x") = false :=
  ⟨by decide, by decide,
    ((C2_equality_iff_neither_less (DavDefaultInputStreamletTag.named "x")
      (DavDefaultOutputStreamletTag.named "x")).2.2.2 (by decide) (by decide)).1⟩

/-! ## C3 -/

theorem DavStreamlet.getErrLoop_eq_find (ws : Waves) (l : List WavePtr) :
    DavStreamlet.getErrLoop ws l =
      match l.find? (fun u => (ws.wave u).hasErr) with
      | some u => (ws.wave u).getErr.m_msgCode
      | none => 0 := by
  induction l with
  | nil => rfl
  | cons u rest ih =>
    unfold DavStreamlet.getErrLoop
    by_cases h : (ws.wave u).hasErr = true
    · simp [h, List.find?_cons]
    · simp only [h, List.find?_cons]
      exact ih

/-- C3: `DavStreamlet::getErr` returns the message code of the first unit, in unit-list
order, whose `hasErr()` is true, and 0 when no unit has an error, so also for an empty
unit list; with the units [error code 5, no error] it returns 5. -/
theorem C3_getErr_first_unit_error (s : DavStreamlet) (ws : Waves) :
    (∀ (before after : List WavePtr) (u : WavePtr),
        s.m_davWaves = before ++ u :: after →
        (∀ v ∈ before, (ws.wave v).hasErr = false) → (ws.wave u).hasErr = true →
          s.getErr ws = (ws.wave u).getErr.m_msgCode) ∧
      ((∀ u ∈ s.m_davWaves, (ws.wave u).hasErr = false) → s.getErr ws = 0) ∧
      (s.m_davWaves = [] → s.getErr ws = 0) ∧
      (∀ u1 u2 : WavePtr, s.m_davWaves = [u1, u2] → (ws.wave u1).hasErr = true →
        (ws.wave u1).getErr.m_msgCode = 5 → (ws.wave u2).hasErr = false → s.getErr ws = 5) := by
  have hfirst : ∀ (before after : List WavePtr) (u : WavePtr),
      s.m_davWaves = before ++ u :: after →
      (∀ v ∈ before, (ws.wave v).hasErr = false) → (ws.wave u).hasErr = true →
        s.getErr ws = (ws.wave u).getErr.m_msgCode := by
    intro before after u hl hb hu
    unfold DavStreamlet.getErr
    rw [hl]
    clear hl
    induction before with
    | nil => simp [DavStreamlet.getErrLoop, hu]
    | cons v rest ih =>
      have hv : (ws.wave v).hasErr = false := hb v (List.mem_cons_self _ _)
      simp only [List.cons_append, DavStreamlet.getErrLoop, hv]
      exact ih (fun x hx => hb x (List.mem_cons_of_mem _ hx))
  have hnone : (∀ u ∈ s.m_davWaves, (ws.wave u).hasErr = false) → s.getErr ws = 0 := by
    intro h
    unfold DavStreamlet.getErr
    rw [DavStreamlet.getErrLoop_eq_find]
    have : s.m_davWaves.find? (fun u => (ws.wave u).hasErr) = none := by
      rw [List.find?_eq_none]
      intro u hu
      simp [h u hu]
    rw [this]
  refine ⟨hfirst, hnone, ?_, ?_⟩
  · intro h
    apply hnone
    rw [h]
    intro u hu
    simp at hu
  · intro u1 u2 hl h1 h5 _
    rw [hfirst [] [u2] u1 (by simpa using hl) (by simp) h1, h5]

/-- Witness of C3: the Streamlet at address 1 of `errWorld` has the units 1 (error code
5) and 2 (no error); its `getErr` is 5. -/
theorem C3_getErr_first_unit_error_witness :
    (errWorld.streamlet 1).m_davWaves = [1, 2] ∧ (errWaves.wave 1).hasErr = true ∧
      (errWaves.wave 1).getErr.m_msgCode = 5 ∧ (errWaves.wave 2).hasErr = false ∧
      (errWorld.streamlet 1).getErr errWaves = 5 :=
  ⟨by decide, by decide, by decide, by decide,
    (C3_getErr_first_unit_error (errWorld.streamlet 1) errWaves).2.2.2 1 2
      (by decide) (by decide) (by decide) (by decide)⟩

/-! ## C4 -/

theorem DavRiver.getErrLoop_nonneg (w : World) (m : RiverEntries)
    (h : ∀ e ∈ m, 0 ≤ (w.streamlet e.2).getErr w.waves) : DavRiver.getErrLoop w m = 0 := by
  induction m with
  | nil => rfl
  | cons e rest ih =>
    have he := h e (List.mem_cons_self _ _)
    simp only [DavRiver.getErrLoop, not_lt.2 he, if_false]
    exact ih (fun x hx => h x (List.mem_cons_of_mem _ hx))

theorem DavRiver.getErrLoop_first (w : World) (m : RiverEntries) (hs : map_sorted m)
    (e : DavStreamletTag × StreamletPtr) (he : e ∈ m)
    (hneg : (w.streamlet e.2).getErr w.waves < 0)
    (hbefore : ∀ e2 ∈ m, operator_lt e2.1 e.1 = true → 0 ≤ (w.streamlet e2.2).getErr w.waves) :
    DavRiver.getErrLoop w m = (w.streamlet e.2).getErr w.waves := by
  induction m with
  | nil => simp at he
  | cons x rest ih =>
    unfold map_sorted at hs
    rw [List.pairwise_cons] at hs
    rcases List.mem_cons.1 he with h | h
    · subst h
      simp only [DavRiver.getErrLoop, hneg, if_true]
    · have hx : 0 ≤ (w.streamlet x.2).getErr w.waves :=
        hbefore x (List.mem_cons_self _ _) (hs.1 e h)
      simp only [DavRiver.getErrLoop, not_lt.2 hx, if_false]
      exact ih hs.2 h (fun y hy => hbefore y (List.mem_cons_of_mem _ hy))

/-- C4: `DavRiver::getErr` returns the first strictly negative value among the
Streamlets' `getErr()` results taken in key order: it is the result of the entry with a
negative result all of whose smaller keys have non-negative results, and it is 0 when no
result is negative; a River whose only Streamlet has `getErr()` 5 returns 0. -/
theorem C4_river_getErr_first_negative (r : DavRiver) (w : World) :
    (r.sorted → ∀ e ∈ r.m_river, (w.streamlet e.2).getErr w.waves < 0 →
        (∀ e2 ∈ r.m_river, operator_lt e2.1 e.1 = true →
          0 ≤ (w.streamlet e2.2).getErr w.waves) →
        r.getErr w = (w.streamlet e.2).getErr w.waves) ∧
      ((∀ e ∈ r.m_river, 0 ≤ (w.streamlet e.2).getErr w.waves) → r.getErr w = 0) ∧
      (∀ (k : DavStreamletTag) (p : StreamletPtr), r.m_river = [(k, p)] →
        (w.streamlet p).getErr w.waves = 5 → r.getErr w = 0) ∧
      (∀ (before after : RiverEntries) (e : DavStreamletTag × StreamletPtr),
        r.m_river = before ++ e :: after →
        (∀ e2 ∈ before, 0 ≤ (w.streamlet e2.2).getErr w.waves) →
        (w.streamlet e.2).getErr w.waves < 0 →
        r.getErr w = (w.streamlet e.2).getErr w.waves) := by
  refine ⟨?_, DavRiver.getErrLoop_nonneg w r.m_river, ?_, ?_⟩
  · intro hs e he hneg hbefore
    exact DavRiver.getErrLoop_first w r.m_river hs e he hneg hbefore
  · intro k p hr h5
    apply DavRiver.getErrLoop_nonneg
    rw [hr]
    intro e he
    simp only [List.mem_singleton] at he
    rw [he, h5]
    decide
  · intro before after e hr hb hneg
    unfold DavRiver.getErr
    rw [hr]
    clear hr
    induction before with
    | nil => simp [DavRiver.getErrLoop, hneg]
    | cons x rest ih =>
      have hx := hb x (List.mem_cons_self _ _)
      simp only [List.cons_append, DavRiver.getErrLoop, not_lt.2 hx, if_false]
      exact ih (fun y hy => hb y (List.mem_cons_of_mem _ hy))

/-- Witness of C4: the River that holds only the Streamlet at address 1 of `errWorld`,
whose `getErr()` is 5, returns 0; the River that holds both Streamlets of `errWorld`
returns -3, the result of the Streamlet tagged `out`. -/
theorem C4_river_getErr_first_negative_witness :
    (DavRiver.add {} errWorld 1).1.m_river = [(DavDefaultInputStreamletTag.named "in", 1)] ∧
      (errWorld.streamlet 1).getErr errWorld.waves = 5 ∧
      (DavRiver.add {} errWorld 1).1.getErr errWorld = 0 ∧
      (DavRiver.init {} errWorld [2, 1]).1.sorted ∧
      (DavRiver.init {} errWorld [2, 1]).1.getErr errWorld = -3 :=
  ⟨by decide, by decide,
    (C4_river_getErr_first_negative (DavRiver.add {} errWorld 1).1 errWorld).2.2.1
      (DavDefaultInputStreamletTag.named "in") 1 (by decide) (by decide),
    by decide,
    (C4_river_getErr_first_negative (DavRiver.init {} errWorld [2, 1]).1 errWorld).1
      (by decide) (DavDefaultOutputStreamletTag.named "out", 2) (by decide) (by decide)
      (by decide)⟩


/-! ## C5 -/

theorem Waves.stamp_foldl_wave (g : Nat) (l : List WavePtr) (ws : Waves) (q : WavePtr) :
    ((l.foldl (fun acc w => acc.setGroupId w g) ws).wave q).m_groupId =
      if q ∈ l then g else (ws.wave q).m_groupId := by
  induction l generalizing ws with
  | nil => simp
  | cons u rest ih =>
    rw [List.foldl_cons, ih]
    by_cases hq : q ∈ rest
    · simp [hq]
    · by_cases hu : q = u
      · simp [hq, hu, Waves.setGroupId, DavWave.setGroupId]
      · simp [hq, hu, Waves.setGroupId]

theorem DavStreamlet.stampAll_groupId (s : DavStreamlet) (ws : Waves) (q : WavePtr) :
    ((s.stampAll ws).wave q).m_groupId =
      if q ∈ s.m_davWaves then s.m_streamletGroupId else (ws.wave q).m_groupId :=
  Waves.stamp_foldl_wave s.m_streamletGroupId s.m_davWaves ws q

theorem Waves.call_foldl_groupId (react : WaveReaction) (c : WaveCall) (l : List WavePtr)
    (ws : Waves) (q : WavePtr) :
    ((l.foldl (fun acc w => acc.call react w c) ws).wave q).m_groupId =
      (ws.wave q).m_groupId := by
  induction l generalizing ws with
  | nil => rfl
  | cons u rest ih =>
    rw [List.foldl_cons, ih]
    by_cases hu : q = u
    · simp [hu, Waves.call, DavWave.call]
    · simp [hu, Waves.call]

theorem DavStreamlet.forward_groupId (react : WaveReaction) (s : DavStreamlet) (c : WaveCall)
    (ws : Waves) (q : WavePtr) :
    ((s.forward react c ws).wave q).m_groupId = (ws.wave q).m_groupId :=
  Waves.call_foldl_groupId react c s.m_davWaves ws q

theorem DavStreamlet.step_groupIdInSync (react : WaveReaction) (s : DavStreamlet) (ws : Waves)
    (op : StreamletOp) (h : s.groupIdInSync ws) :
    (s.step react ws op).1.groupIdInSync (s.step react ws op).2 := by
  cases op with
  | start => intro u hu; simpa [DavStreamlet.step, DavStreamlet.start,
      DavStreamlet.forward_groupId] using h u hu
  | pause => intro u hu; simpa [DavStreamlet.step, DavStreamlet.pause,
      DavStreamlet.forward_groupId] using h u hu
  | resume => intro u hu; simpa [DavStreamlet.step, DavStreamlet.resume,
      DavStreamlet.forward_groupId] using h u hu
  | stop => intro u hu; simpa [DavStreamlet.step, DavStreamlet.stop,
      DavStreamlet.forward_groupId] using h u hu
  | reset => intro u hu; simpa [DavStreamlet.step, DavStreamlet.reset,
      DavStreamlet.forward_groupId] using h u hu
  | clear => intro u hu; simp [DavStreamlet.step, DavStreamlet.clear] at hu
  | setWaves waves =>
    intro u hu
    simp only [DavStreamlet.step, DavStreamlet.setWaves] at hu ⊢
    rw [DavStreamlet.stampAll_groupId, if_pos hu]
  | addOneWave one =>
    intro u hu
    simp only [DavStreamlet.step, DavStreamlet.addOneWave, List.mem_append,
      List.mem_singleton] at hu ⊢
    by_cases h1 : u = one
    · simp [h1, Waves.setGroupId, DavWave.setGroupId]
    · rcases hu with hu | hu
      · simpa [h1, Waves.setGroupId] using h u hu
      · exact absurd hu h1
  | setAudioInEntries waves => exact h
  | setVideoInEntries waves => exact h
  | setAudioOutEntries waves => exact h
  | setVideoOutEntries waves => exact h
  | addOneAudioInEntry wave => exact h
  | addOneVideoInEntry wave => exact h
  | addOneAudioOutEntry wave => exact h
  | addOneVideoOutEntry wave => exact h
  | setGroupId g =>
    intro u hu
    simp only [DavStreamlet.step, DavStreamlet.setGroupId] at hu ⊢
    rw [DavStreamlet.stampAll_groupId, if_pos hu]
  | setTag tag => exact h

theorem DavStreamlet.steps_groupIdInSync (react : WaveReaction) (ops : List StreamletOp)
    (s : DavStreamlet) (ws : Waves) (h : s.groupIdInSync ws) :
    (s.steps react ws ops).1.groupIdInSync (s.steps react ws ops).2 := by
  induction ops generalizing s ws with
  | nil => exact h
  | cons op rest ih =>
    unfold DavStreamlet.steps
    exact ih _ _ (DavStreamlet.step_groupIdInSync react s ws op h)

/-- C5: for one Streamlet, every unit of the unit list carries the Streamlet's group id
after `setWaves` and after `setGroupId`; `addOneWave` stamps the added unit and keeps
the property, and so does every other operation, hence every sequence of operations; it
holds in every state reached from an empty unit list. A unit added with `addOneWave`
carries the new id after a later `setGroupId`, and carries the Streamlet's id after any
later operations for as long as it is in the unit list. -/
theorem C5_units_carry_streamlet_groupId (react : WaveReaction) (s : DavStreamlet)
    (ws : Waves) :
    (∀ waves : List WavePtr,
        (s.setWaves ws waves).1.groupIdInSync (s.setWaves ws waves).2.1 ∧
          (s.setWaves ws waves).1.m_davWaves = waves ∧
          (s.setWaves ws waves).1.m_streamletGroupId = s.m_streamletGroupId) ∧
      (∀ one : WavePtr,
        one ∈ (s.addOneWave ws one).1.m_davWaves ∧
          ((s.addOneWave ws one).2.1.wave one).m_groupId =
            (s.addOneWave ws one).1.m_streamletGroupId ∧
          (s.groupIdInSync ws →
            (s.addOneWave ws one).1.groupIdInSync (s.addOneWave ws one).2.1)) ∧
      (∀ g : Nat,
        (s.setGroupId ws g).1.m_streamletGroupId = g ∧
          (s.setGroupId ws g).1.m_davWaves = s.m_davWaves ∧
          (s.setGroupId ws g).1.groupIdInSync (s.setGroupId ws g).2) ∧
      (∀ op : StreamletOp, s.groupIdInSync ws →
        (s.step react ws op).1.groupIdInSync (s.step react ws op).2) ∧
      (∀ ops : List StreamletOp, s.groupIdInSync ws →
        (s.steps react ws ops).1.groupIdInSync (s.steps react ws ops).2) ∧
      (∀ ops : List StreamletOp, s.m_davWaves = [] →
        (s.steps react ws ops).1.groupIdInSync (s.steps react ws ops).2) ∧
      (∀ (one : WavePtr) (g : Nat),
        (((s.addOneWave ws one).1.setGroupId (s.addOneWave ws one).2.1 g).2.wave one).m_groupId
            = g ∧
          ((s.addOneWave ws one).1.setGroupId (s.addOneWave ws one).2.1 g).1.m_streamletGroupId
            = g) ∧
      (∀ (one : WavePtr) (ops : List StreamletOp), s.groupIdInSync ws →
        one ∈ ((s.addOneWave ws one).1.steps react (s.addOneWave ws one).2.1 ops).1.m_davWaves →
          ((((s.addOneWave ws one).1.steps react (s.addOneWave ws one).2.1 ops).2).wave
              one).m_groupId =
            ((s.addOneWave ws one).1.steps react (s.addOneWave ws one).2.1
              ops).1.m_streamletGroupId) := by
  have hadd : ∀ one : WavePtr, s.groupIdInSync ws →
      (s.addOneWave ws one).1.groupIdInSync (s.addOneWave ws one).2.1 := fun one h =>
    DavStreamlet.step_groupIdInSync react s ws (StreamletOp.addOneWave one) h
  refine ⟨?_, ?_, ?_, ?_, ?_, ?_, ?_, ?_⟩
  · intro waves
    refine ⟨?_, rfl, rfl⟩
    intro u hu
    simp only [DavStreamlet.setWaves] at hu ⊢
    rw [DavStreamlet.stampAll_groupId, if_pos hu]
  · intro one
    refine ⟨by simp [DavStreamlet.addOneWave], ?_, hadd one⟩
    simp [DavStreamlet.addOneWave, Waves.setGroupId, DavWave.setGroupId]
  · intro g
    refine ⟨rfl, rfl, ?_⟩
    intro u hu
    simp only [DavStreamlet.setGroupId] at hu ⊢
    rw [DavStreamlet.stampAll_groupId, if_pos hu]
  · intro op h
    exact DavStreamlet.step_groupIdInSync react s ws op h
  · intro ops h
    exact DavStreamlet.steps_groupIdInSync react ops s ws h
  · intro ops h
    apply DavStreamlet.steps_groupIdInSync
    intro u hu
    rw [h] at hu
    simp at hu
  · intro one g
    refine ⟨?_, rfl⟩
    simp only [DavStreamlet.setGroupId]
    rw [DavStreamlet.stampAll_groupId, if_pos]
    simp [DavStreamlet.addOneWave]
  · intro one ops h hmem
    exact DavStreamlet.steps_groupIdInSync react ops _ _ (hadd one h) one hmem

/-- Witness of C5: a Streamlet constructed with group id 7 and no units; after
`addOneWave` of unit 4, `start`, and `setGroupId` to 9, unit 4 is in the unit list and
carries the group id 9. -/
theorem C5_units_carry_streamlet_groupId_witness :
    (DavStreamlet.ofGroupId 7).groupIdInSync exampleWaves ∧
      4 ∈ (((DavStreamlet.ofGroupId 7).addOneWave exampleWaves 4).1.steps runReaction
        ((DavStreamlet.ofGroupId 7).addOneWave exampleWaves 4).2.1
        [StreamletOp.start, StreamletOp.setGroupId 9]).1.m_davWaves ∧
      (((((DavStreamlet.ofGroupId 7).addOneWave exampleWaves 4).1.steps runReaction
        ((DavStreamlet.ofGroupId 7).addOneWave exampleWaves 4).2.1
        [StreamletOp.start, StreamletOp.setGroupId 9]).2).wave 4).m_groupId =
        (((DavStreamlet.ofGroupId 7).addOneWave exampleWaves 4).1.steps runReaction
        ((DavStreamlet.ofGroupId 7).addOneWave exampleWaves 4).2.1
        [StreamletOp.start, StreamletOp.setGroupId 9]).1.m_streamletGroupId ∧
      (((((DavStreamlet.ofGroupId 7).addOneWave exampleWaves 4).1.steps runReaction
        ((DavStreamlet.ofGroupId 7).addOneWave exampleWaves 4).2.1
        [StreamletOp.start, StreamletOp.setGroupId 9]).2).wave 4).m_groupId = 9 :=
  ⟨by decide, by decide,
    (C5_units_carry_streamlet_groupId runReaction (DavStreamlet.ofGroupId 7)
      exampleWaves).2.2.2.2.2.2.2 4 [StreamletOp.start, StreamletOp.setGroupId 9]
      (by decide) (by decide),
    by decide⟩

/-! ## C6 -/

/-- C6: after `DavStreamlet::clear` the unit list and the four entry lists are empty and
the call returns 0; a second `clear` returns 0 again and leaves the state of the first;
the tag and the group id are kept. -/
theorem C6_clear_empties_and_is_idempotent (s : DavStreamlet) :
    s.clear.1.m_davWaves = [] ∧ s.clear.1.m_audioInEntries = [] ∧
      s.clear.1.m_audioOutEntries = [] ∧ s.clear.1.m_videoInEntries = [] ∧
      s.clear.1.m_videoOutEntries = [] ∧ s.clear.2 = 0 ∧
      s.clear.1.getWaves = [] ∧ s.clear.1.getAudioInEntries = [] ∧
      s.clear.1.getAudioOutEntries = [] ∧ s.clear.1.getVideoInEntries = [] ∧
      s.clear.1.getVideoOutEntries = [] ∧
      s.clear.1.clear.1 = s.clear.1 ∧ s.clear.1.clear.2 = 0 ∧
      s.clear.1.m_streamletTag = s.m_streamletTag ∧
      s.clear.1.m_streamletGroupId = s.m_streamletGroupId := by
  refine ⟨rfl, rfl, rfl, rfl, rfl, rfl, rfl, rfl, rfl, rfl, rfl, rfl, rfl, rfl, rfl⟩

/-! ## C7 -/

/-- C7: `get` never throws and never changes the River. A tag is a key exactly when
`count` is 1. When no entry has the tag as its key the result is the empty pointer;
when the tag is a key the result is a Streamlet stored under it, and in a map with
ascending keys that is the one Streamlet stored under the tag. -/
theorem C7_get_stored_or_empty (r : DavRiver) (t : DavStreamletTag) :
    (r.get t).1 = r ∧
      (r.count t = 1 ↔ ∃ e ∈ r.m_river, e.1 = t) ∧
      (r.count t = 0 ↔ ∀ e ∈ r.m_river, e.1 ≠ t) ∧
      ((∀ e ∈ r.m_river, e.1 ≠ t) → (r.get t).2 = Except.ok none) ∧
      ((∃ e ∈ r.m_river, e.1 = t) →
        ∃ p, (t, p) ∈ r.m_river ∧ (r.get t).2 = Except.ok (some p)) ∧
      (r.sorted → ∀ p, (t, p) ∈ r.m_river → (r.get t).2 = Except.ok (some p)) := by
  refine ⟨?_, map_count_eq_one_iff _ _, map_count_eq_zero_iff _ _, ?_, ?_, ?_⟩
  · unfold DavRiver.get
    split <;> rfl
  · intro h
    rw [DavRiver.get_eq]
    have : r.m_river.find? (fun e => decide (e.1 = t)) = none := by
      rw [List.find?_eq_none]
      intro e he
      simpa using h e he
    rw [this]; rfl
  · rintro ⟨e, he, hk⟩
    rw [DavRiver.get_eq]
    cases hf : r.m_river.find? (fun e => decide (e.1 = t)) with
    | none =>
      rw [List.find?_eq_none] at hf
      exact absurd hk (by simpa using hf e he)
    | some e2 =>
      have h1 := List.mem_of_find?_eq_some hf
      have h2 := List.find?_some hf
      simp only [decide_eq_true_eq] at h2
      refine ⟨e2.2, ?_, rfl⟩
      rw [← h2]
      exact h1
  · intro hs p hp
    rw [DavRiver.get_eq, map_sorted_find r.m_river t p hs hp]
    rfl

/-- Witness of C7: in `sameTagRiver` the tag named `a` is a key and `get` returns the
Streamlet at address 1; the tag named `b` is not a key and `get` returns the empty
pointer. -/
theorem C7_get_stored_or_empty_witness :
    sameTagRiver.sorted ∧ (DavUnknownStreamletTag.named "a", 1) ∈ sameTagRiver.m_river ∧
      (sameTagRiver.get (DavUnknownStreamletTag.named "a")).2 = Except.ok (some 1) ∧
      (∀ e ∈ sameTagRiver.m_river, e.1 ≠ DavUnknownStreamletTag.named "b") ∧
      (sameTagRiver.get (DavUnknownStreamletTag.named "b")).2 = Except.ok none :=
  ⟨by decide, by decide,
    (C7_get_stored_or_empty sameTagRiver (DavUnknownStreamletTag.named "a")).2.2.2.2.2
      (by decide) 1 (by decide),
    by decide,
    (C7_get_stored_or_empty sameTagRiver (DavUnknownStreamletTag.named "b")).2.2.2.1
      (by decide)⟩


/-! ## C8 -/

theorem DavStreamlet.isStoppedLoop_iff (ws : Waves) (l : List WavePtr) :
    DavStreamlet.isStoppedLoop ws l = true ↔ ∀ u ∈ l, (ws.wave u).isStopped = true := by
  induction l with
  | nil => simp [DavStreamlet.isStoppedLoop]
  | cons u rest ih =>
    unfold DavStreamlet.isStoppedLoop
    by_cases h : (ws.wave u).isStopped = true
    · simp [h, ih]
    · simp [h]

/-- C8: `DavStreamlet::isStopped` returns true exactly when every unit of the unit list
reports `isStopped()` true; with no units it returns true. -/
theorem C8_isStopped_iff_every_unit_stopped (s : DavStreamlet) (ws : Waves) :
    (s.isStopped ws = true ↔ ∀ u ∈ s.m_davWaves, (ws.wave u).isStopped = true) ∧
      (s.isStopped ws = false ↔ ∃ u ∈ s.m_davWaves, (ws.wave u).isStopped = false) ∧
      (s.m_davWaves = [] → s.isStopped ws = true) := by
  have h1 : s.isStopped ws = true ↔ ∀ u ∈ s.m_davWaves, (ws.wave u).isStopped = true :=
    DavStreamlet.isStoppedLoop_iff ws s.m_davWaves
  refine ⟨h1, ?_, ?_⟩
  · rw [← Bool.not_eq_true, h1]
    simp
  · intro h
    rw [h1, h]
    intro u hu
    simp at hu

/-- Witness of C8: a freshly constructed Streamlet has no units and is stopped. -/
theorem C8_isStopped_iff_every_unit_stopped_witness :
    (DavStreamlet.new 7).m_davWaves = [] ∧ (DavStreamlet.new 7).isStopped exampleWaves = true :=
  ⟨rfl, (C8_isStopped_iff_every_unit_stopped (DavStreamlet.new 7) exampleWaves).2.2 rfl⟩


/-! ## C9 -/

theorem DavRiver.riverStoppedLoop_iff (w : World) (m : RiverEntries) :
    DavRiver.isStoppedLoop w m = true ↔
      ∀ e ∈ m, (w.streamlet e.2).isStopped w.waves = true := by
  induction m with
  | nil => simp [DavRiver.isStoppedLoop]
  | cons e rest ih =>
    unfold DavRiver.isStoppedLoop
    by_cases h : (w.streamlet e.2).isStopped w.waves = true
    · simp [h, ih]
    · simp [h]

theorem DavRiver.start_foldl_streamlet (react : WaveReaction) (m : RiverEntries) (w : World) :
    (m.foldl
      (fun acc s =>
        { acc with
          log := acc.log ++ [s.1]
          waves := ((acc.streamlet s.2).start react acc.waves).1 }) w).streamlet
      = w.streamlet := by
  induction m generalizing w with
  | nil => rfl
  | cons e rest ih => rw [List.foldl_cons, ih]

/-- C9: `DavRiver::isStopped` returns true exactly when `isStopped()` of every
contained Streamlet is true, that is, when every unit of every contained Streamlet
reports stopped; it returns true for an empty River. `start` leaves the Streamlets and
their unit lists as they are, and when after `start` some unit of a contained Streamlet
reports not stopped, `isStopped` returns false. -/
theorem C9_river_isStopped_iff_all_stopped (react : WaveReaction) (r : DavRiver)
    (w : World) :
    (r.isStopped w = true ↔ ∀ e ∈ r.m_river, (w.streamlet e.2).isStopped w.waves = true) ∧
      (r.isStopped w = true ↔
        ∀ e ∈ r.m_river, ∀ u ∈ (w.streamlet e.2).m_davWaves,
          (w.waves.wave u).isStopped = true) ∧
      DavRiver.isStopped {} w = true ∧
      (r.start react w).streamlet = w.streamlet ∧
      ((∃ e ∈ r.m_river, ∃ u ∈ (w.streamlet e.2).m_davWaves,
          ((r.start react w).waves.wave u).isStopped = false) →
        r.isStopped (r.start react w) = false) := by
  have h1 : ∀ w : World, r.isStopped w = true ↔
      ∀ e ∈ r.m_river, (w.streamlet e.2).isStopped w.waves = true := fun w =>
    DavRiver.riverStoppedLoop_iff w r.m_river
  have h2 : ∀ w : World, r.isStopped w = true ↔
      ∀ e ∈ r.m_river, ∀ u ∈ (w.streamlet e.2).m_davWaves,
        (w.waves.wave u).isStopped = true := by
    intro w
    rw [h1]
    constructor
    · intro h e he
      exact (DavStreamlet.isStoppedLoop_iff w.waves _).1 (h e he)
    · intro h e he
      exact (DavStreamlet.isStoppedLoop_iff w.waves _).2 (h e he)
  have hst : (r.start react w).streamlet = w.streamlet :=
    DavRiver.start_foldl_streamlet react r.m_river w
  refine ⟨h1 w, h2 w, rfl, hst, ?_⟩
  rintro ⟨e, he, u, hu, hns⟩
  rw [← Bool.not_eq_true, h2, hst]
  intro hall
  rw [hall e he u hu] at hns
  exact absurd hns (by decide)

/-- Witness of C9: in `stoppedWorld` all units are stopped and the River of its two
Streamlets is stopped; after `start`, with units that run once started, unit 1 of the
Streamlet tagged `in` is not stopped and the River is not stopped. -/
theorem C9_river_isStopped_iff_all_stopped_witness :
    (DavRiver.init {} stoppedWorld [1, 2]).1.isStopped stoppedWorld = true ∧
      (∃ e ∈ (DavRiver.init {} stoppedWorld [1, 2]).1.m_river,
        ∃ u ∈ (stoppedWorld.streamlet e.2).m_davWaves,
          ((((DavRiver.init {} stoppedWorld [1, 2]).1.start runReaction
            stoppedWorld).waves.wave u).isStopped = false)) ∧
      (DavRiver.init {} stoppedWorld [1, 2]).1.isStopped
        ((DavRiver.init {} stoppedWorld [1, 2]).1.start runReaction stoppedWorld) = false :=
  ⟨by decide,
    ⟨(DavDefaultInputStreamletTag.named "in", 1), by decide, 1, by decide, by decide⟩,
    (C9_river_isStopped_iff_all_stopped runReaction (DavRiver.init {} stoppedWorld [1, 2]).1
      stoppedWorld).2.2.2.2
      ⟨(DavDefaultInputStreamletTag.named "in", 1), by decide, 1, by decide, by decide⟩⟩

/-! ## C10 -/

theorem DavRiver.byCategory_foldl (c : type_index) (m : RiverEntries)
    (acc : List StreamletPtr) :
    m.foldl
      (fun streamlets r =>
        if r.1.m_streamletCategory = c then streamlets ++ [r.2] else streamlets) acc =
      acc ++ (m.filter (fun e => decide (e.1.m_streamletCategory = c))).map Prod.snd := by
  induction m generalizing acc with
  | nil => simp
  | cons e rest ih =>
    rw [List.foldl_cons, ih]
    by_cases h : e.1.m_streamletCategory = c
    · simp [h, List.filter_cons]
    · simp [h, List.filter_cons]

/-- C10: `getStreamletsByCategory(p)` returns the Streamlets of the entries whose key has
the category of `p`, one per such entry and in the order of the entries, which is the
ascending key order of the map; a Streamlet is in the result exactly when it is stored
under a key of that category; when the entries hold different Streamlets the result has
no repetition; the result depends on `p` through its category only. -/
theorem C10_getStreamletsByCategory_filters_by_category (r : DavRiver)
    (p : DavStreamletTag) :
    r.getStreamletsByCategory p =
        (r.m_river.filter
          (fun e => decide (e.1.m_streamletCategory = p.m_streamletCategory))).map Prod.snd ∧
      (r.sorted →
        (r.m_river.filter
          (fun e => decide (e.1.m_streamletCategory = p.m_streamletCategory))).Pairwise
            (fun a b => operator_lt a.1 b.1 = true)) ∧
      (∀ s : StreamletPtr, s ∈ r.getStreamletsByCategory p ↔
        ∃ k : DavStreamletTag, (k, s) ∈ r.m_river ∧
          k.m_streamletCategory = p.m_streamletCategory) ∧
      ((r.m_river.map Prod.snd).Nodup → (r.getStreamletsByCategory p).Nodup) ∧
      (∀ q : DavStreamletTag, q.m_streamletCategory = p.m_streamletCategory →
        r.getStreamletsByCategory q = r.getStreamletsByCategory p) := by
  have heq : ∀ q : DavStreamletTag, r.getStreamletsByCategory q =
      (r.m_river.filter
        (fun e => decide (e.1.m_streamletCategory = q.m_streamletCategory))).map Prod.snd := by
    intro q
    unfold DavRiver.getStreamletsByCategory
    rw [DavRiver.byCategory_foldl]
    simp
  refine ⟨heq p, ?_, ?_, ?_, ?_⟩
  · intro hs
    exact List.Pairwise.sublist (List.filter_sublist _) hs
  · intro s
    rw [heq]
    simp only [List.mem_map, List.mem_filter, decide_eq_true_eq]
    constructor
    · rintro ⟨e, ⟨he, hc⟩, hsnd⟩
      refine ⟨e.1, ?_, hc⟩
      rw [← hsnd]
      exact he
    · rintro ⟨k, hk, hc⟩
      exact ⟨(k, s), ⟨hk, hc⟩, rfl⟩
  · intro hnd
    rw [heq]
    exact List.Nodup.sublist (List.Sublist.map Prod.snd (List.filter_sublist _)) hnd
  · intro q hq
    rw [heq, heq, hq]

/-- Witness of C10: the River of the two Streamlets of `errWorld`, added in the order
`out`, `in`, has ascending keys; the probes of the default-output category named
`DefaultOutputStreamlet` and `zzz` both select the Streamlet at address 2. -/
theorem C10_getStreamletsByCategory_filters_by_category_witness :
    (DavRiver.init {} errWorld [2, 1]).1.sorted ∧
      (DavDefaultOutputStreamletTag.named "zzz").m_streamletCategory =
        DavDefaultOutputStreamletTag.m_streamletCategory ∧
      (DavRiver.init {} errWorld [2, 1]).1.getStreamletsByCategory
          (DavDefaultOutputStreamletTag.named "zzz") =
        (DavRiver.init {} errWorld [2, 1]).1.getStreamletsByCategory
          DavDefaultOutputStreamletTag ∧
      (DavRiver.init {} errWorld [2, 1]).1.getStreamletsByCategory
          DavDefaultOutputStreamletTag = [2] :=
  ⟨by decide, by decide,
    (C10_getStreamletsByCategory_filters_by_category (DavRiver.init {} errWorld [2, 1]).1
      DavDefaultOutputStreamletTag).2.2.2.2 (DavDefaultOutputStreamletTag.named "zzz")
      (by decide),
    by decide⟩



/-! ## C11 -/

theorem keyEquiv_eq_decide (a b : DavStreamletTag) : keyEquiv a b = decide (a = b) := by
  by_cases h : a = b
  · simp [h, (keyEquiv_iff_eq b b).2 rfl]
  · cases hk : keyEquiv a b
    · simp [h]
    · exact absurd ((keyEquiv_iff_eq _ _).1 hk) h

theorem map_erase_eq_filter (m : RiverEntries) (t : DavStreamletTag) :
    map_erase m t = m.filter (fun e => !decide (e.1 = t)) := by
  unfold map_erase
  congr 1
  funext e
  rw [keyEquiv_eq_decide]

theorem map_erase_length (m : RiverEntries) (t : DavStreamletTag) (hs : map_sorted m)
    (hk : ∃ e ∈ m, e.1 = t) : (map_erase m t).length + 1 = m.length := by
  rw [map_erase_eq_filter]
  induction m with
  | nil =>
    obtain ⟨e, he, _⟩ := hk
    simp at he
  | cons x rest ih =>
    unfold map_sorted at hs
    rw [List.pairwise_cons] at hs
    by_cases hx : x.1 = t
    · have hrest : rest.filter (fun e => !decide (e.1 = t)) = rest := by
        rw [List.filter_eq_self]
        intro y hy
        have hlt := hs.1 y hy
        have : y.1 ≠ t := by
          intro hyt
          rw [hx, hyt, operator_lt_irrefl] at hlt
          exact absurd hlt (by decide)
        simp [this]
      simp [List.filter_cons, hx, hrest]
    · obtain ⟨e, he, het⟩ := hk
      have he2 : e ∈ rest := by
        rcases List.mem_cons.1 he with h | h
        · rw [h] at het; exact absurd het hx
        · exact h
      have := ih hs.2 ⟨e, he2, het⟩
      simp [List.filter_cons, hx, this]

/-- C11: `erase(t)` returns 0. When `t` is not a key the River is unchanged. In every
case `count(t)` is 0 and `get(t)` is empty afterwards, the entries with another key are
the same as before and keep their order, and lookups of other keys give what they gave
before; when `t` is a key of a map with ascending keys the size drops by one. `count` is
1 for a key and 0 otherwise, and after `clear`, which returns 0, `count` is 0 for every
tag. -/
theorem C11_erase_count_clear (r : DavRiver) (t : DavStreamletTag) :
    (r.erase t).2 = 0 ∧
      ((∀ e ∈ r.m_river, e.1 ≠ t) →
        (r.erase t).1 = r ∧ (r.erase t).1.size = r.size) ∧
      (r.erase t).1.count t = 0 ∧
      ((r.erase t).1.get t).2 = Except.ok none ∧
      (r.sorted → (∃ e ∈ r.m_river, e.1 = t) → (r.erase t).1.size + 1 = r.size) ∧
      (r.erase t).1.m_river = r.m_river.filter (fun e => !decide (e.1 = t)) ∧
      (∀ e : DavStreamletTag × StreamletPtr, e.1 ≠ t →
        (e ∈ (r.erase t).1.m_river ↔ e ∈ r.m_river)) ∧
      (∀ t2 : DavStreamletTag, t2 ≠ t →
        (r.erase t).1.count t2 = r.count t2 ∧ ((r.erase t).1.get t2).2 = (r.get t2).2) ∧
      ((∃ e ∈ r.m_river, e.1 = t) → r.count t = 1) ∧
      ((∀ e ∈ r.m_river, e.1 ≠ t) → r.count t = 0) ∧
      r.clear.2 = 0 ∧ r.clear.1.size = 0 ∧
      (∀ t2 : DavStreamletTag, r.clear.1.count t2 = 0) := by
  have hfil : (r.erase t).1.m_river = r.m_river.filter (fun e => !decide (e.1 = t)) :=
    map_erase_eq_filter r.m_river t
  have hcount0 : (r.erase t).1.count t = 0 := by
    unfold DavRiver.count
    rw [map_count_eq_zero_iff, hfil]
    intro e he
    simpa using (List.mem_filter.1 he).2
  refine ⟨rfl, ?_, hcount0, ?_, ?_, hfil, ?_, ?_, ?_, ?_, rfl, rfl, ?_⟩
  · intro h
    have : (r.erase t).1 = r := by
      have h2 : (r.erase t).1.m_river = r.m_river := by
        rw [hfil, List.filter_eq_self]
        intro e he
        simp [h e he]
      cases r
      simpa [DavRiver.erase] using h2
    rw [this]
    exact ⟨rfl, rfl⟩
  · unfold DavRiver.count at hcount0
    simp [DavRiver.get, hcount0]
  · intro hs hk
    exact map_erase_length r.m_river t hs hk
  · intro e he
    rw [hfil, List.mem_filter]
    simp [he]
  · intro t2 ht2
    have hfind : (r.erase t).1.m_river.find? (fun e => decide (e.1 = t2)) =
        r.m_river.find? (fun e => decide (e.1 = t2)) := by
      rw [hfil]
      generalize r.m_river = m
      induction m with
      | nil => rfl
      | cons x rest ih =>
        have ht : ¬ t = t2 := fun h => ht2 h.symm
        by_cases hx : x.1 = t
        · simp [List.filter_cons, List.find?_cons, hx, ht, ih]
        · by_cases hx2 : x.1 = t2
          · simp [List.filter_cons, List.find?_cons, hx2, ht2]
          · simp [List.filter_cons, List.find?_cons, hx, hx2, ih]
    constructor
    · unfold DavRiver.count
      rcases map_count_le_one r.m_river t2 with h0 | h1
      · rw [h0, map_count_eq_zero_iff]
        rw [map_count_eq_zero_iff] at h0
        intro e he
        rw [hfil] at he
        exact h0 e (List.mem_filter.1 he).1
      · rw [h1, map_count_eq_one_iff]
        rw [map_count_eq_one_iff] at h1
        obtain ⟨e, he, hk⟩ := h1
        refine ⟨e, ?_, hk⟩
        rw [hfil, List.mem_filter]
        refine ⟨he, ?_⟩
        have : e.1 ≠ t := by rw [hk]; exact ht2
        simp [this]
    · rw [DavRiver.get_eq, DavRiver.get_eq, hfind]
  · intro h
    exact (map_count_eq_one_iff r.m_river t).2 h
  · intro h
    exact (map_count_eq_zero_iff r.m_river t).2 h
  · intro t2
    rfl

/-- Witness of C11: in `sameTagRiver` the tag named `a` is the only key; erasing it
leaves no entry, erasing the tag named `b` leaves the River as it was. -/
theorem C11_erase_count_clear_witness :
    sameTagRiver.sorted ∧
      (∃ e ∈ sameTagRiver.m_river, e.1 = DavUnknownStreamletTag.named "a") ∧
      (sameTagRiver.erase (DavUnknownStreamletTag.named "a")).1.size + 1 = sameTagRiver.size ∧
      (∀ e ∈ sameTagRiver.m_river, e.1 ≠ DavUnknownStreamletTag.named "b") ∧
      (sameTagRiver.erase (DavUnknownStreamletTag.named "b")).1 = sameTagRiver :=
  ⟨by decide, by decide,
    (C11_erase_count_clear sameTagRiver (DavUnknownStreamletTag.named "a")).2.2.2.2.1
      (by decide) (by decide),
    by decide,
    ((C11_erase_count_clear sameTagRiver (DavUnknownStreamletTag.named "b")).2.1
      (by decide)).1⟩

/-! ## C12 -/

theorem Waves.call_foldl_calls (react : WaveReaction) (c : WaveCall) (l : List WavePtr)
    (ws : Waves) :
    (l.foldl (fun acc w => acc.call react w c) ws).calls =
      ws.calls ++ l.map (fun u => (u, c)) := by
  induction l generalizing ws with
  | nil => simp
  | cons u rest ih =>
    rw [List.foldl_cons, ih]
    simp [Waves.call]

theorem Waves.call_foldl_other (react : WaveReaction) (c : WaveCall) (l : List WavePtr)
    (ws : Waves) (q : WavePtr) (hq : q ∉ l) :
    (l.foldl (fun acc w => acc.call react w c) ws).wave q = ws.wave q := by
  induction l generalizing ws with
  | nil => rfl
  | cons u rest ih =>
    rw [List.foldl_cons, ih _ (fun h => hq (List.mem_cons_of_mem _ h))]
    have : q ≠ u := fun h => hq (by rw [h]; exact List.mem_cons_self _ _)
    simp [Waves.call, this]

theorem DavStreamlet.forward_calls (react : WaveReaction) (s : DavStreamlet) (c : WaveCall)
    (ws : Waves) :
    (s.forward react c ws).calls = ws.calls ++ s.m_davWaves.map (fun u => (u, c)) :=
  Waves.call_foldl_calls react c s.m_davWaves ws

/-- C12: each of `start`, `pause`, `resume`, `stop` and `reset` of a Streamlet issues
the matching call to the units of the unit list, once per list position and in list
order, for every reaction of the units, and returns 0; units outside the list are left
alone, and with an empty unit list nothing is called and nothing changes. -/
theorem C12_lifecycle_calls_every_unit_in_order (react : WaveReaction) (s : DavStreamlet)
    (ws : Waves) :
    ((s.start react ws).1.calls =
        ws.calls ++ s.m_davWaves.map (fun u => (u, WaveCall.start)) ∧
      (s.start react ws).2 = 0) ∧
      ((s.pause react ws).1.calls =
        ws.calls ++ s.m_davWaves.map (fun u => (u, WaveCall.pause)) ∧
      (s.pause react ws).2 = 0) ∧
      ((s.resume react ws).1.calls =
        ws.calls ++ s.m_davWaves.map (fun u => (u, WaveCall.resume)) ∧
      (s.resume react ws).2 = 0) ∧
      ((s.stop react ws).1.calls =
        ws.calls ++ s.m_davWaves.map (fun u => (u, WaveCall.stop)) ∧
      (s.stop react ws).2 = 0) ∧
      ((s.reset react ws).1.calls =
        ws.calls ++ s.m_davWaves.map (fun u => (u, WaveCall.reset)) ∧
      (s.reset react ws).2 = 0) ∧
      (∀ (c : WaveCall) (q : WavePtr), q ∉ s.m_davWaves →
        (s.forward react c ws).wave q = ws.wave q) ∧
      (s.m_davWaves = [] →
        (s.start react ws) = (ws, 0) ∧ (s.pause react ws) = (ws, 0) ∧
          (s.resume react ws) = (ws, 0) ∧ (s.stop react ws) = (ws, 0) ∧
          (s.reset react ws) = (ws, 0)) := by
  refine ⟨⟨DavStreamlet.forward_calls react s _ ws, rfl⟩,
    ⟨DavStreamlet.forward_calls react s _ ws, rfl⟩,
    ⟨DavStreamlet.forward_calls react s _ ws, rfl⟩,
    ⟨DavStreamlet.forward_calls react s _ ws, rfl⟩,
    ⟨DavStreamlet.forward_calls react s _ ws, rfl⟩, ?_, ?_⟩
  · intro c q hq
    exact Waves.call_foldl_other react c s.m_davWaves ws q hq
  · intro h
    simp [DavStreamlet.start, DavStreamlet.pause, DavStreamlet.resume, DavStreamlet.stop,
      DavStreamlet.reset, DavStreamlet.forward, h]

/-- Witness of C12: a freshly constructed Streamlet has no units; `stop` on it calls
nothing and returns 0. The Streamlet at address 1 of `errWorld` has the units 1 and 2;
`stop` on it calls `stop` on unit 1 and then on unit 2. -/
theorem C12_lifecycle_calls_every_unit_in_order_witness :
    (DavStreamlet.new 7).m_davWaves = [] ∧
      ((DavStreamlet.new 7).stop runReaction exampleWaves).1.calls = [] ∧
      ((DavStreamlet.new 7).stop runReaction exampleWaves).2 = 0 ∧
      ((errWorld.streamlet 1).stop runReaction errWaves).1.calls =
        [(1, WaveCall.stop), (2, WaveCall.stop)] :=
  ⟨rfl,
    congrArg (fun x => x.1.calls)
      ((C12_lifecycle_calls_every_unit_in_order runReaction (DavStreamlet.new 7)
        exampleWaves).2.2.2.2.2.2 rfl).2.2.2.1,
    congrArg (fun x => x.2)
      ((C12_lifecycle_calls_every_unit_in_order runReaction (DavStreamlet.new 7)
        exampleWaves).2.2.2.2.2.2 rfl).2.2.2.1,
    by decide⟩


/-! ## Keys and tags -/

theorem map_emplace_mem (m : RiverEntries) (k : DavStreamletTag) (v : StreamletPtr)
    (e : DavStreamletTag × StreamletPtr) :
    e ∈ map_emplace m k v ↔ e ∈ m ∨ (e = (k, v) ∧ ∀ x ∈ m, x.1 ≠ k) := by
  unfold map_emplace
  split
  · rename_i h0
    rw [map_count_eq_zero_iff] at h0
    rw [map_insertSorted_mem]
    constructor
    · rintro (h | h)
      · exact Or.inr ⟨h, h0⟩
      · exact Or.inl h
    · rintro (h | ⟨h, _⟩)
      · exact Or.inr h
      · exact Or.inl h
  · rename_i h0
    constructor
    · intro h; exact Or.inl h
    · rintro (h | ⟨_, h⟩)
      · exact h
      · exact absurd ((map_count_eq_zero_iff m k).2 h) h0

theorem map_init_mem_sub (w : World) (l : List StreamletPtr) (m : RiverEntries)
    (e : DavStreamletTag × StreamletPtr)
    (he : e ∈ l.foldl (fun m s => map_emplace m (w.streamlet s).getTag s) m) :
    e ∈ m ∨ (e.2 ∈ l ∧ e.1 = (w.streamlet e.2).getTag) := by
  induction l generalizing m with
  | nil => exact Or.inl he
  | cons s rest ih =>
    rw [List.foldl_cons] at he
    rcases ih _ he with h | ⟨h1, h2⟩
    · rcases (map_emplace_mem m _ s e).1 h with h3 | ⟨h3, _⟩
      · exact Or.inl h3
      · right
        rw [h3]
        exact ⟨List.mem_cons_self _ _, rfl⟩
    · exact Or.inr ⟨List.mem_cons_of_mem _ h1, h2⟩

theorem map_init_mem (w : World) (l : List StreamletPtr) (m : RiverEntries)
    (hnd : (l.map (fun s => (w.streamlet s).getTag)).Nodup)
    (hm : ∀ s ∈ l, ∀ x ∈ m, x.1 ≠ (w.streamlet s).getTag)
    (e : DavStreamletTag × StreamletPtr) :
    e ∈ l.foldl (fun m s => map_emplace m (w.streamlet s).getTag s) m ↔
      e ∈ m ∨ ∃ s ∈ l, e = ((w.streamlet s).getTag, s) := by
  induction l generalizing m with
  | nil => simp
  | cons s rest ih =>
    rw [List.map_cons, List.nodup_cons] at hnd
    have hs : ∀ x ∈ m, x.1 ≠ (w.streamlet s).getTag := hm s (List.mem_cons_self _ _)
    rw [List.foldl_cons, ih _ hnd.2]
    · rw [map_emplace_mem]
      constructor
      · rintro ((h | ⟨h, _⟩) | ⟨s2, hs2, h⟩)
        · exact Or.inl h
        · exact Or.inr ⟨s, List.mem_cons_self _ _, h⟩
        · exact Or.inr ⟨s2, List.mem_cons_of_mem _ hs2, h⟩
      · rintro (h | ⟨s2, hs2, h⟩)
        · exact Or.inl (Or.inl h)
        · rcases List.mem_cons.1 hs2 with h2 | h2
          · rw [h2] at h
            exact Or.inl (Or.inr ⟨h, hs⟩)
          · exact Or.inr ⟨s2, h2, h⟩
    · intro s2 hs2 x hx
      rcases (map_emplace_mem m _ s x).1 hx with h | ⟨h, _⟩
      · exact hm s2 (List.mem_cons_of_mem _ hs2) x h
      · rw [h]
        intro heq
        apply hnd.1
        rw [List.mem_map]
        exact ⟨s2, hs2, heq.symm⟩

theorem map_sorted_nodup (m : RiverEntries) (hs : map_sorted m) : m.Nodup := by
  unfold map_sorted at hs
  refine List.Pairwise.imp ?_ hs
  intro a b hlt hab
  rw [hab, operator_lt_irrefl] at hlt
  exact absurd hlt (by decide)

theorem map_sorted_ext (m1 m2 : RiverEntries) (h1 : map_sorted m1) (h2 : map_sorted m2)
    (hmem : ∀ e, e ∈ m1 ↔ e ∈ m2) : m1 = m2 := by
  have hperm : m1.Perm m2 :=
    (List.perm_ext_iff_of_nodup (map_sorted_nodup m1 h1) (map_sorted_nodup m2 h2)).2 hmem
  haveI : IsAntisymm (DavStreamletTag × StreamletPtr)
      (fun a b => operator_lt a.1 b.1 = true) :=
    ⟨fun a b hab hba => by
      rw [operator_lt_asymm hab] at hba
      exact absurd hba (by decide)⟩
  exact List.eq_of_perm_of_sorted hperm h1 h2

theorem DavRiver.init_keysAreTags (r : DavRiver) (w : World) (l : List StreamletPtr)
    (h : r.keysAreTags w) : (r.init w l).1.keysAreTags w := by
  intro e he
  rcases map_init_mem_sub w l r.m_river e he with h1 | ⟨_, h2⟩
  · exact h e h1
  · exact h2

/-! ## C13 -/

theorem DavRiver.start_foldl_calls (react : WaveReaction) (m : RiverEntries) (w : World) :
    (m.foldl
      (fun acc s =>
        { acc with
          log := acc.log ++ [s.1]
          waves := ((acc.streamlet s.2).start react acc.waves).1 }) w).waves.calls =
      w.waves.calls ++
        m.flatMap (fun e => (w.streamlet e.2).m_davWaves.map (fun u => (u, WaveCall.start))) := by
  induction m generalizing w with
  | nil => simp
  | cons e rest ih =>
    rw [List.foldl_cons, ih]
    simp [DavStreamlet.start, DavStreamlet.forward_calls, List.flatMap_cons]

theorem DavRiver.start_foldl_log (react : WaveReaction) (m : RiverEntries) (w : World) :
    (m.foldl
      (fun acc s =>
        { acc with
          log := acc.log ++ [s.1]
          waves := ((acc.streamlet s.2).start react acc.waves).1 }) w).log =
      w.log ++ m.map Prod.fst := by
  induction m generalizing w with
  | nil => simp
  | cons e rest ih =>
    rw [List.foldl_cons, ih]
    simp

theorem DavRiver.stop_foldl_calls (react : WaveReaction) (m : RiverEntries) (w : World) :
    (m.foldl
      (fun acc s => { acc with waves := ((acc.streamlet s.2).stop react acc.waves).1 })
      w).waves.calls =
      w.waves.calls ++
        m.flatMap (fun e => (w.streamlet e.2).m_davWaves.map (fun u => (u, WaveCall.stop))) := by
  induction m generalizing w with
  | nil => simp
  | cons e rest ih =>
    rw [List.foldl_cons, ih]
    simp [DavStreamlet.stop, DavStreamlet.forward_calls, List.flatMap_cons]

theorem DavRiver.stop_foldl_frame (react : WaveReaction) (m : RiverEntries) (w : World) :
    (m.foldl
      (fun acc s => { acc with waves := ((acc.streamlet s.2).stop react acc.waves).1 })
      w).streamlet = w.streamlet ∧
    (m.foldl
      (fun acc s => { acc with waves := ((acc.streamlet s.2).stop react acc.waves).1 })
      w).log = w.log := by
  induction m generalizing w with
  | nil => exact ⟨rfl, rfl⟩
  | cons e rest ih =>
    rw [List.foldl_cons]
    exact ih _

/-- C13: `DavRiver::start` logs and starts the Streamlet of every entry, once per entry
and in the order of the entries, which is the ascending key order of the map; `stop`
stops the Streamlet of every entry in the same way; no entry is skipped, whatever the
units report. The unit calls issued are the concatenation, entry by entry, of the unit
lists of the Streamlets. With Streamlets named `in` and `out`, added in either order,
the units of `in` are started before the units of `out`. -/
theorem C13_river_start_stop_every_streamlet_in_key_order (react : WaveReaction)
    (r : DavRiver) (w : World) :
    (r.start react w).waves.calls =
        w.waves.calls ++ r.m_river.flatMap
          (fun e => (w.streamlet e.2).m_davWaves.map (fun u => (u, WaveCall.start))) ∧
      (r.start react w).log = w.log ++ r.m_river.map Prod.fst ∧
      (r.stop react w).waves.calls =
        w.waves.calls ++ r.m_river.flatMap
          (fun e => (w.streamlet e.2).m_davWaves.map (fun u => (u, WaveCall.stop))) ∧
      (r.stop react w).log = w.log ∧
      (r.start react w).streamlet = w.streamlet ∧
      (r.stop react w).streamlet = w.streamlet ∧
      (r.sorted → (r.m_river.map Prod.fst).Pairwise (fun a b => operator_lt a b = true)) ∧
      (∀ a b : StreamletPtr, (w.streamlet a).getTag.m_streamletName = "in" →
        (w.streamlet b).getTag.m_streamletName = "out" →
          (DavRiver.init {} w [a, b]).1 = (DavRiver.init {} w [b, a]).1 ∧
          ((DavRiver.init {} w [b, a]).1.start react w).waves.calls =
            w.waves.calls ++
              ((w.streamlet a).m_davWaves.map (fun u => (u, WaveCall.start)) ++
                (w.streamlet b).m_davWaves.map (fun u => (u, WaveCall.start))) ∧
          ((DavRiver.init {} w [b, a]).1.start react w).log =
            w.log ++ [(w.streamlet a).getTag, (w.streamlet b).getTag]) := by
  have hcalls : ∀ r : DavRiver, (r.start react w).waves.calls =
      w.waves.calls ++ r.m_river.flatMap
        (fun e => (w.streamlet e.2).m_davWaves.map (fun u => (u, WaveCall.start))) :=
    fun r => DavRiver.start_foldl_calls react r.m_river w
  have hlog : ∀ r : DavRiver, (r.start react w).log = w.log ++ r.m_river.map Prod.fst :=
    fun r => DavRiver.start_foldl_log react r.m_river w
  refine ⟨hcalls r, hlog r, DavRiver.stop_foldl_calls react r.m_river w,
    (DavRiver.stop_foldl_frame react r.m_river w).2,
    DavRiver.start_foldl_streamlet react r.m_river w,
    (DavRiver.stop_foldl_frame react r.m_river w).1, ?_, ?_⟩
  · intro hs
    rw [List.pairwise_map]
    exact hs
  · intro a b ha hb
    have hlt : operator_lt (w.streamlet a).getTag (w.streamlet b).getTag = true := by
      rw [operator_lt_iff]
      left
      simp only [DavStreamlet.getTag] at ha hb
      simp only [DavStreamlet.getTag, ha, hb]
      decide
    have hgt : operator_lt (w.streamlet b).getTag (w.streamlet a).getTag = false :=
      operator_lt_asymm hlt
    have hk1 : keyEquiv (w.streamlet b).getTag (w.streamlet a).getTag = false := by
      simp [keyEquiv, hlt]
    have hk2 : keyEquiv (w.streamlet a).getTag (w.streamlet b).getTag = false := by
      simp [keyEquiv, hlt]
    have hba : (DavRiver.init {} w [b, a]).1.m_river =
        [((w.streamlet a).getTag, a), ((w.streamlet b).getTag, b)] := by
      simp [DavRiver.init, map_emplace, map_count, map_insertSorted, hlt, hk1]
    have hab : (DavRiver.init {} w [a, b]).1.m_river =
        [((w.streamlet a).getTag, a), ((w.streamlet b).getTag, b)] := by
      simp [DavRiver.init, map_emplace, map_count, map_insertSorted, hgt, hk2]
    refine ⟨?_, ?_, ?_⟩
    · have : (DavRiver.init {} w [a, b]).1.m_river = (DavRiver.init {} w [b, a]).1.m_river := by
        rw [hab, hba]
      cases h1 : (DavRiver.init {} w [a, b]).1
      cases h2 : (DavRiver.init {} w [b, a]).1
      rw [h1, h2] at this
      simpa using this
    · rw [hcalls, hba]
      simp [List.flatMap_cons]
    · rw [hlog, hba]
      simp

/-- Witness of C13: in `errWorld` the Streamlet at address 1 is named `in` and has the
units 1 and 2, the Streamlet at address 2 is named `out` and has the unit 3; the River
built from the list [2, 1] has ascending keys and `start` calls the units 1, 2, 3 in
this order. -/
theorem C13_river_start_stop_every_streamlet_in_key_order_witness :
    (DavRiver.init {} errWorld [2, 1]).1.sorted ∧
      (errWorld.streamlet 1).getTag.m_streamletName = "in" ∧
      (errWorld.streamlet 2).getTag.m_streamletName = "out" ∧
      ((DavRiver.init {} errWorld [2, 1]).1.start runReaction errWorld).waves.calls =
        errWorld.waves.calls ++
          ((errWorld.streamlet 1).m_davWaves.map (fun u => (u, WaveCall.start)) ++
            (errWorld.streamlet 2).m_davWaves.map (fun u => (u, WaveCall.start))) ∧
      ((DavRiver.init {} errWorld [2, 1]).1.start runReaction errWorld).waves.calls =
        [(1, WaveCall.start), (2, WaveCall.start), (3, WaveCall.start)] :=
  ⟨by decide, by decide, by decide,
    ((C13_river_start_stop_every_streamlet_in_key_order runReaction
      (DavRiver.init {} errWorld [2, 1]).1 errWorld).2.2.2.2.2.2.2 1 2
      (by decide) (by decide)).2.1,
    by decide⟩


/-! ## C14 -/

theorem DavRiver.getStreamlets_foldl (m : RiverEntries) (acc : List StreamletPtr) :
    m.foldl (fun streamlets r => streamlets ++ [r.2]) acc = acc ++ m.map Prod.snd := by
  induction m generalizing acc with
  | nil => simp
  | cons e rest ih =>
    rw [List.foldl_cons, ih]
    simp

theorem DavRiver.getStreamlets_eq (r : DavRiver) : r.getStreamlets = r.m_river.map Prod.snd := by
  unfold DavRiver.getStreamlets
  rw [DavRiver.getStreamlets_foldl]
  simp

theorem DavRiver.getStreamlets_tag_order (r : DavRiver) (w : World) (hs : r.sorted)
    (hk : r.keysAreTags w) :
    r.getStreamlets.Pairwise
      (fun a b => operator_lt (w.streamlet a).getTag (w.streamlet b).getTag = true) := by
  rw [DavRiver.getStreamlets_eq, List.pairwise_map]
  have hs2 : r.m_river.Pairwise (fun a b => operator_lt a.1 b.1 = true) := hs
  rw [List.pairwise_iff_forall_sublist] at hs2 ⊢
  intro a b hab
  have ha : a ∈ r.m_river := hab.subset (by simp)
  have hb : b ∈ r.m_river := hab.subset (by simp)
  rw [← hk a ha, ← hk b hb]
  exact hs2 hab

/-- C14: `DavRiver::getStreamlets` returns the Streamlet of every entry, one per entry
and in the order of the entries, so its length is the number of entries; the entries of
the map are in strictly ascending key order. For a River built by `init` the result is
in strictly ascending order of the tags of the Streamlets, whatever the order of the
list; and when the Streamlets of the list have different tags the River and the result
are the same for every reordering of the list, and the result holds each Streamlet of
the list once. -/
theorem C14_getStreamlets_every_entry_in_key_order (r : DavRiver) (w : World) :
    r.getStreamlets = r.m_river.map Prod.snd ∧
      r.getStreamlets.length = r.size ∧
      (∀ s : StreamletPtr, s ∈ r.getStreamlets ↔ ∃ k : DavStreamletTag, (k, s) ∈ r.m_river) ∧
      (r.sorted → (r.m_river.map Prod.fst).Pairwise (fun a b => operator_lt a b = true)) ∧
      (r.sorted → r.keysAreTags w →
        r.getStreamlets.Pairwise
          (fun a b => operator_lt (w.streamlet a).getTag (w.streamlet b).getTag = true)) ∧
      (∀ l : List StreamletPtr,
        (DavRiver.init {} w l).1.getStreamlets.Pairwise
          (fun a b => operator_lt (w.streamlet a).getTag (w.streamlet b).getTag = true)) ∧
      (∀ l l2 : List StreamletPtr, l.Perm l2 →
        (l.map (fun s => (w.streamlet s).getTag)).Nodup →
          (DavRiver.init {} w l).1 = (DavRiver.init {} w l2).1 ∧
          (DavRiver.init {} w l).1.getStreamlets = (DavRiver.init {} w l2).1.getStreamlets ∧
          (DavRiver.init {} w l).1.getStreamlets.Perm l) := by
  have hempty_sorted : DavRiver.sorted {} := DavRiver.empty_sorted
  have hempty_keys : DavRiver.keysAreTags {} w := by
    intro e he
    simp at he
  refine ⟨DavRiver.getStreamlets_eq r, ?_, ?_, ?_, ?_, ?_, ?_⟩
  · rw [DavRiver.getStreamlets_eq]
    simp [DavRiver.size]
  · intro s
    rw [DavRiver.getStreamlets_eq]
    simp
  · intro hs
    rw [List.pairwise_map]
    exact hs
  · exact DavRiver.getStreamlets_tag_order r w
  · intro l
    exact DavRiver.getStreamlets_tag_order _ w (DavRiver.init_sorted _ w l hempty_sorted)
      (DavRiver.init_keysAreTags _ w l hempty_keys)
  · intro l l2 hperm hnd
    have hnd2 : (l2.map (fun s => (w.streamlet s).getTag)).Nodup :=
      (List.Perm.nodup_iff (List.Perm.map _ hperm)).1 hnd
    have hmem : ∀ (l : List StreamletPtr),
        (l.map (fun s => (w.streamlet s).getTag)).Nodup →
        ∀ e, e ∈ (DavRiver.init {} w l).1.m_river ↔
          ∃ s ∈ l, e = ((w.streamlet s).getTag, s) := by
      intro l hl e
      simp only [DavRiver.init]
      rw [map_init_mem w l [] hl (by intro s _ x hx; simp at hx)]
      simp
    have heq : (DavRiver.init {} w l).1.m_river = (DavRiver.init {} w l2).1.m_river := by
      apply map_sorted_ext
      · exact DavRiver.init_sorted _ w l hempty_sorted
      · exact DavRiver.init_sorted _ w l2 hempty_sorted
      · intro e
        rw [hmem l hnd, hmem l2 hnd2]
        constructor
        · rintro ⟨s, hs, he⟩
          exact ⟨s, hperm.subset hs, he⟩
        · rintro ⟨s, hs, he⟩
          exact ⟨s, hperm.symm.subset hs, he⟩
    have heq2 : (DavRiver.init {} w l).1 = (DavRiver.init {} w l2).1 := by
      cases h1 : (DavRiver.init {} w l).1
      cases h2 : (DavRiver.init {} w l2).1
      rw [h1, h2] at heq
      simpa using heq
    refine ⟨heq2, by rw [heq2], ?_⟩
    rw [DavRiver.getStreamlets_eq]
    have hl : l.Nodup := List.Nodup.of_map _ hnd
    have hsn : ((DavRiver.init {} w l).1.m_river.map Prod.snd).Nodup := by
      refine List.Nodup.map_on ?_
        (map_sorted_nodup _ (DavRiver.init_sorted _ w l hempty_sorted))
      intro x hx y hy hxy
      have kx := DavRiver.init_keysAreTags _ w l hempty_keys x hx
      have ky := DavRiver.init_keysAreTags _ w l hempty_keys y hy
      apply Prod.ext
      · rw [kx, ky, hxy]
      · exact hxy
    rw [List.perm_ext_iff_of_nodup hsn hl]
    intro s
    rw [List.mem_map]
    constructor
    · rintro ⟨e, he, hes⟩
      obtain ⟨s2, hs2, he2⟩ := (hmem l hnd e).1 he
      rw [he2] at hes
      rw [← hes]
      exact hs2
    · intro hs
      exact ⟨((w.streamlet s).getTag, s), (hmem l hnd _).2 ⟨s, hs, rfl⟩, rfl⟩

/-- Witness of C14: the Streamlets 2 (`out`) and 1 (`in`) of `errWorld` have different
tags; the River built from [2, 1] is the River built from [1, 2], and `getStreamlets`
returns [1, 2]. -/
theorem C14_getStreamlets_every_entry_in_key_order_witness :
    List.Perm [2, 1] [1, 2] ∧
      (([2, 1] : List StreamletPtr).map (fun s => (errWorld.streamlet s).getTag)).Nodup ∧
      (DavRiver.init {} errWorld [2, 1]).1 = (DavRiver.init {} errWorld [1, 2]).1 ∧
      (DavRiver.init {} errWorld [2, 1]).1.getStreamlets = [1, 2] :=
  ⟨List.Perm.swap 1 2 [], by decide,
    ((C14_getStreamlets_every_entry_in_key_order {} errWorld).2.2.2.2.2.2 [2, 1] [1, 2]
      (List.Perm.swap 1 2 []) (by decide)).1,
    by decide⟩

/-! ## C15 -/

theorem DavStreamlet.wavesByCategory_foldl (ws : Waves) (c : DavWaveClassCategory)
    (l acc : List WavePtr) :
    l.foldl
      (fun waves w => if (ws.wave w).getDavWaveCategory = c then waves ++ [w] else waves)
      acc =
      acc ++ l.filter (fun u => decide ((ws.wave u).getDavWaveCategory = c)) := by
  induction l generalizing acc with
  | nil => simp
  | cons u rest ih =>
    rw [List.foldl_cons, ih]
    by_cases h : (ws.wave u).getDavWaveCategory = c
    · simp [h, List.filter_cons]
    · simp [h, List.filter_cons]

/-- C15: `getWavesByCategory(c)` returns the units of the unit list whose category is
`c`, in unit-list order: the filter of the unit list by category; the Streamlet is
unchanged. -/
theorem C15_getWavesByCategory_is_filter (s : DavStreamlet) (ws : Waves)
    (c : DavWaveClassCategory) :
    (s.getWavesByCategory ws c).2 =
        s.m_davWaves.filter (fun u => decide ((ws.wave u).getDavWaveCategory = c)) ∧
      (s.getWavesByCategory ws c).1 = s ∧
      (∀ u : WavePtr, u ∈ (s.getWavesByCategory ws c).2 ↔
        (u ∈ s.m_davWaves ∧ (ws.wave u).getDavWaveCategory = c)) ∧
      (s.getWavesByCategory ws c).2.Sublist s.m_davWaves ∧
      ((errWorld.streamlet 1).getWavesByCategory categoryWaves 7).2 = [1] := by
  have h : (s.getWavesByCategory ws c).2 =
      s.m_davWaves.filter (fun u => decide ((ws.wave u).getDavWaveCategory = c)) := by
    unfold DavStreamlet.getWavesByCategory
    simp only
    rw [DavStreamlet.wavesByCategory_foldl]
    simp
  refine ⟨h, rfl, ?_, ?_, by decide⟩
  · intro u
    rw [h]
    simp [List.mem_filter]
  · rw [h]
    exact List.filter_sublist _


/-! ## C17 -/

/-- C17: the unit list and the four entry lists are independent. `setWaves`,
`addOneWave` and `setGroupId` leave the four entry lists and the tag as they are. Each
`set...Entries` replaces and each `addOne...Entry` appends to its own list, for any
units, in the unit list or not, and leaves the unit list, the other three entry lists,
the tag, the group id and the units themselves as they are. -/
theorem C17_unit_list_and_entry_lists_independent (s : DavStreamlet) (ws : Waves)
    (waves : List WavePtr) (one : WavePtr) (g : Nat) :
    ((s.setWaves ws waves).1.m_audioInEntries = s.m_audioInEntries ∧
        (s.setWaves ws waves).1.m_audioOutEntries = s.m_audioOutEntries ∧
        (s.setWaves ws waves).1.m_videoInEntries = s.m_videoInEntries ∧
        (s.setWaves ws waves).1.m_videoOutEntries = s.m_videoOutEntries ∧
        (s.setWaves ws waves).1.m_streamletTag = s.m_streamletTag) ∧
      ((s.addOneWave ws one).1.m_audioInEntries = s.m_audioInEntries ∧
        (s.addOneWave ws one).1.m_audioOutEntries = s.m_audioOutEntries ∧
        (s.addOneWave ws one).1.m_videoInEntries = s.m_videoInEntries ∧
        (s.addOneWave ws one).1.m_videoOutEntries = s.m_videoOutEntries ∧
        (s.addOneWave ws one).1.m_streamletTag = s.m_streamletTag) ∧
      ((s.setGroupId ws g).1.m_audioInEntries = s.m_audioInEntries ∧
        (s.setGroupId ws g).1.m_audioOutEntries = s.m_audioOutEntries ∧
        (s.setGroupId ws g).1.m_videoInEntries = s.m_videoInEntries ∧
        (s.setGroupId ws g).1.m_videoOutEntries = s.m_videoOutEntries ∧
        (s.setGroupId ws g).1.m_streamletTag = s.m_streamletTag) ∧
      (s.setAudioInEntries waves = { s with m_audioInEntries := waves } ∧
        s.setAudioOutEntries waves = { s with m_audioOutEntries := waves } ∧
        s.setVideoInEntries waves = { s with m_videoInEntries := waves } ∧
        s.setVideoOutEntries waves = { s with m_videoOutEntries := waves }) ∧
      (s.addOneAudioInEntry one = { s with m_audioInEntries := s.m_audioInEntries ++ [one] } ∧
        s.addOneAudioOutEntry one =
          { s with m_audioOutEntries := s.m_audioOutEntries ++ [one] } ∧
        s.addOneVideoInEntry one = { s with m_videoInEntries := s.m_videoInEntries ++ [one] } ∧
        s.addOneVideoOutEntry one =
          { s with m_videoOutEntries := s.m_videoOutEntries ++ [one] }) ∧
      ((s.setAudioInEntries waves).getAudioInEntries = waves ∧
        (s.setAudioInEntries waves).m_davWaves = s.m_davWaves ∧
        (s.setAudioInEntries waves).m_audioOutEntries = s.m_audioOutEntries ∧
        (s.setAudioInEntries waves).m_videoInEntries = s.m_videoInEntries ∧
        (s.setAudioInEntries waves).m_videoOutEntries = s.m_videoOutEntries ∧
        (s.setAudioInEntries waves).m_streamletTag = s.m_streamletTag ∧
        (s.setAudioInEntries waves).m_streamletGroupId = s.m_streamletGroupId) ∧
      ((s.setAudioOutEntries waves).getAudioOutEntries = waves ∧
        (s.setAudioOutEntries waves).m_davWaves = s.m_davWaves ∧
        (s.setAudioOutEntries waves).m_audioInEntries = s.m_audioInEntries ∧
        (s.setAudioOutEntries waves).m_videoInEntries = s.m_videoInEntries ∧
        (s.setAudioOutEntries waves).m_videoOutEntries = s.m_videoOutEntries ∧
        (s.setAudioOutEntries waves).m_streamletTag = s.m_streamletTag ∧
        (s.setAudioOutEntries waves).m_streamletGroupId = s.m_streamletGroupId) ∧
      ((s.setVideoInEntries waves).getVideoInEntries = waves ∧
        (s.setVideoInEntries waves).m_davWaves = s.m_davWaves ∧
        (s.setVideoInEntries waves).m_audioInEntries = s.m_audioInEntries ∧
        (s.setVideoInEntries waves).m_audioOutEntries = s.m_audioOutEntries ∧
        (s.setVideoInEntries waves).m_videoOutEntries = s.m_videoOutEntries ∧
        (s.setVideoInEntries waves).m_streamletTag = s.m_streamletTag ∧
        (s.setVideoInEntries waves).m_streamletGroupId = s.m_streamletGroupId) ∧
      ((s.setVideoOutEntries waves).getVideoOutEntries = waves ∧
        (s.setVideoOutEntries waves).m_davWaves = s.m_davWaves ∧
        (s.setVideoOutEntries waves).m_audioInEntries = s.m_audioInEntries ∧
        (s.setVideoOutEntries waves).m_audioOutEntries = s.m_audioOutEntries ∧
        (s.setVideoOutEntries waves).m_videoInEntries = s.m_videoInEntries ∧
        (s.setVideoOutEntries waves).m_streamletTag = s.m_streamletTag ∧
        (s.setVideoOutEntries waves).m_streamletGroupId = s.m_streamletGroupId) ∧
      ((s.addOneAudioInEntry one).getAudioInEntries = s.m_audioInEntries ++ [one] ∧
        (s.addOneAudioInEntry one).m_davWaves = s.m_davWaves ∧
        (s.addOneAudioInEntry one).m_audioOutEntries = s.m_audioOutEntries ∧
        (s.addOneAudioInEntry one).m_videoInEntries = s.m_videoInEntries ∧
        (s.addOneAudioInEntry one).m_videoOutEntries = s.m_videoOutEntries ∧
        (s.addOneAudioInEntry one).m_streamletTag = s.m_streamletTag ∧
        (s.addOneAudioInEntry one).m_streamletGroupId = s.m_streamletGroupId) ∧
      ((s.addOneAudioOutEntry one).getAudioOutEntries = s.m_audioOutEntries ++ [one] ∧
        (s.addOneAudioOutEntry one).m_davWaves = s.m_davWaves ∧
        (s.addOneAudioOutEntry one).m_audioInEntries = s.m_audioInEntries ∧
        (s.addOneAudioOutEntry one).m_videoInEntries = s.m_videoInEntries ∧
        (s.addOneAudioOutEntry one).m_videoOutEntries = s.m_videoOutEntries ∧
        (s.addOneAudioOutEntry one).m_streamletTag = s.m_streamletTag ∧
        (s.addOneAudioOutEntry one).m_streamletGroupId = s.m_streamletGroupId) ∧
      ((s.addOneVideoInEntry one).getVideoInEntries = s.m_videoInEntries ++ [one] ∧
        (s.addOneVideoInEntry one).m_davWaves = s.m_davWaves ∧
        (s.addOneVideoInEntry one).m_audioInEntries = s.m_audioInEntries ∧
        (s.addOneVideoInEntry one).m_audioOutEntries = s.m_audioOutEntries ∧
        (s.addOneVideoInEntry one).m_videoOutEntries = s.m_videoOutEntries ∧
        (s.addOneVideoInEntry one).m_streamletTag = s.m_streamletTag ∧
        (s.addOneVideoInEntry one).m_streamletGroupId = s.m_streamletGroupId) ∧
      ((s.addOneVideoOutEntry one).getVideoOutEntries = s.m_videoOutEntries ++ [one] ∧
        (s.addOneVideoOutEntry one).m_davWaves = s.m_davWaves ∧
        (s.addOneVideoOutEntry one).m_audioInEntries = s.m_audioInEntries ∧
        (s.addOneVideoOutEntry one).m_audioOutEntries = s.m_audioOutEntries ∧
        (s.addOneVideoOutEntry one).m_videoInEntries = s.m_videoInEntries ∧
        (s.addOneVideoOutEntry one).m_streamletTag = s.m_streamletTag ∧
        (s.addOneVideoOutEntry one).m_streamletGroupId = s.m_streamletGroupId) ∧
      (∀ (react : WaveReaction) (op : StreamletOp),
        (op = StreamletOp.setAudioInEntries waves ∨ op = StreamletOp.setAudioOutEntries waves ∨
          op = StreamletOp.setVideoInEntries waves ∨ op = StreamletOp.setVideoOutEntries waves ∨
          op = StreamletOp.addOneAudioInEntry one ∨ op = StreamletOp.addOneAudioOutEntry one ∨
          op = StreamletOp.addOneVideoInEntry one ∨ op = StreamletOp.addOneVideoOutEntry one) →
        (s.step react ws op).2 = ws ∧ (s.step react ws op).1.m_davWaves = s.m_davWaves) := by
  refine ⟨⟨rfl, rfl, rfl, rfl, rfl⟩, ⟨rfl, rfl, rfl, rfl, rfl⟩, ⟨rfl, rfl, rfl, rfl, rfl⟩,
    ⟨rfl, rfl, rfl, rfl⟩, ⟨rfl, rfl, rfl, rfl⟩,
    ⟨rfl, rfl, rfl, rfl, rfl, rfl, rfl⟩, ⟨rfl, rfl, rfl, rfl, rfl, rfl, rfl⟩,
    ⟨rfl, rfl, rfl, rfl, rfl, rfl, rfl⟩, ⟨rfl, rfl, rfl, rfl, rfl, rfl, rfl⟩,
    ⟨rfl, rfl, rfl, rfl, rfl, rfl, rfl⟩, ⟨rfl, rfl, rfl, rfl, rfl, rfl, rfl⟩,
    ⟨rfl, rfl, rfl, rfl, rfl, rfl, rfl⟩, ⟨rfl, rfl, rfl, rfl, rfl, rfl, rfl⟩, ?_⟩
  intro react op hop
  rcases hop with h | h | h | h | h | h | h | h <;> subst h <;> exact ⟨rfl, rfl⟩

/-- Witness of C17: a freshly constructed Streamlet has no units; unit 4 is accepted as
an audio-in entry, and the units and the unit list stay as they were. -/
theorem C17_unit_list_and_entry_lists_independent_witness :
    4 ∉ (DavStreamlet.new 7).m_davWaves ∧
      ((DavStreamlet.new 7).addOneAudioInEntry 4).getAudioInEntries = [4] ∧
      ((DavStreamlet.new 7).step runReaction exampleWaves
        (StreamletOp.addOneAudioInEntry 4)).1.m_davWaves = [] :=
  ⟨by decide, by decide,
    ((C17_unit_list_and_entry_lists_independent (DavStreamlet.new 7) exampleWaves [] 4
      0).2.2.2.2.2.2.2.2.2.2.2.2.2 runReaction (StreamletOp.addOneAudioInEntry 4)
      (Or.inr (Or.inr (Or.inr (Or.inr (Or.inl rfl)))))).2⟩

/-! ## C18 -/

/-- C18, as stated, fails: the category of the default tag `DavStreamletTag()` is not
the category of `DavUnknownStreamletTag()`; a Streamlet constructed without a tag is
stored under a key of the unknown category, the default tag as probe does not select it
and the unknown tag as probe does. -/
theorem C18_default_tag_is_not_unknown :
    DavStreamletTag.new.m_streamletCategory ≠ DavUnknownStreamletTag.m_streamletCategory ∧
      (untaggedWorld.streamlet 7).getTag.m_streamletCategory =
        DavUnknownStreamletTag.m_streamletCategory ∧
      (DavRiver.add {} untaggedWorld 7).1.getStreamlets = [7] ∧
      (DavRiver.add {} untaggedWorld 7).1.getStreamletsByCategory DavStreamletTag.new = [] ∧
      (DavRiver.add {} untaggedWorld 7).1.getStreamletsByCategory DavUnknownStreamletTag =
        [7] := by
  decide

/-- C18 (amended): the default tag has the empty name and the category of the struct
`DavStreamletTag` itself, which is not the category of `DavUnknownStreamletTag()`.
Streamlets constructed without a tag carry the unknown category. As probe of
`getStreamletsByCategory` the default tag selects the Streamlets stored under keys of
the category of `DavStreamletTag`; in a River whose keys all have the unknown category
it selects nothing, and the probe `DavUnknownStreamletTag()` selects every Streamlet. -/
theorem C18_default_tag_has_its_own_category (r : DavRiver) :
    DavStreamletTag.new.m_streamletName = "" ∧
      DavStreamletTag.new.m_streamletCategory = typeid_DavStreamletTag ∧
      DavUnknownStreamletTag.m_streamletCategory = typeid_DavUnknownStreamletTag ∧
      DavStreamletTag.new.m_streamletCategory ≠ DavUnknownStreamletTag.m_streamletCategory ∧
      (∀ this : Nat, (DavStreamlet.new this).getTag.m_streamletCategory =
        DavUnknownStreamletTag.m_streamletCategory) ∧
      (∀ g : Nat, (DavStreamlet.ofGroupId g).getTag.m_streamletCategory =
        DavUnknownStreamletTag.m_streamletCategory) ∧
      r.getStreamletsByCategory DavStreamletTag.new =
        (r.m_river.filter
          (fun e => decide (e.1.m_streamletCategory = typeid_DavStreamletTag))).map Prod.snd ∧
      ((∀ e ∈ r.m_river,
          e.1.m_streamletCategory = DavUnknownStreamletTag.m_streamletCategory) →
        r.getStreamletsByCategory DavStreamletTag.new = [] ∧
          r.getStreamletsByCategory DavUnknownStreamletTag = r.getStreamlets) := by
  have hnew : r.getStreamletsByCategory DavStreamletTag.new =
      (r.m_river.filter
        (fun e => decide (e.1.m_streamletCategory = typeid_DavStreamletTag))).map Prod.snd := by
    unfold DavRiver.getStreamletsByCategory
    rw [DavRiver.byCategory_foldl]
    rfl
  refine ⟨rfl, rfl, rfl, by decide, fun _ => rfl, fun _ => rfl, hnew, ?_⟩
  intro h
  constructor
  · rw [hnew]
    have : r.m_river.filter
        (fun e => decide (e.1.m_streamletCategory = typeid_DavStreamletTag)) = [] := by
      rw [List.filter_eq_nil_iff]
      intro e he
      have h1 := h e he
      have h2 : DavUnknownStreamletTag.m_streamletCategory ≠ typeid_DavStreamletTag := by
        decide
      rw [← h1] at h2
      simp [h2]
    rw [this]
    rfl
  · unfold DavRiver.getStreamletsByCategory
    rw [DavRiver.byCategory_foldl, DavRiver.getStreamlets_eq]
    have : r.m_river.filter
        (fun e => decide (e.1.m_streamletCategory =
          DavUnknownStreamletTag.m_streamletCategory)) = r.m_river := by
      rw [List.filter_eq_self]
      intro e he
      simp [h e he]
    rw [this]
    rfl

/-- Witness of C18 (amended): every key of the River that holds the untagged Streamlet
at address 7 has the unknown category; the default tag selects nothing from it. -/
theorem C18_default_tag_has_its_own_category_witness :
    (∀ e ∈ (DavRiver.add {} untaggedWorld 7).1.m_river,
        e.1.m_streamletCategory = DavUnknownStreamletTag.m_streamletCategory) ∧
      (DavRiver.add {} untaggedWorld 7).1.getStreamletsByCategory DavStreamletTag.new = [] :=
  ⟨by decide,
    ((C18_default_tag_has_its_own_category (DavRiver.add {} untaggedWorld 7).1).2.2.2.2.2.2.2
      (by decide)).1⟩


/-! ## C19 -/

theorem DavRiver.step_mem (r : DavRiver) (w : World) (op : RiverOp)
    (e : DavStreamletTag × StreamletPtr) (he : e ∈ (r.step w op).m_river) :
    e ∈ r.m_river ∨ (e.2 ∈ op.inserted ∧ e.1 = (w.streamlet e.2).getTag) := by
  cases op with
  | init streamlets => exact map_init_mem_sub w streamlets r.m_river e he
  | add streamlet =>
    rcases (map_emplace_mem r.m_river _ streamlet e).1 he with h | ⟨h, _⟩
    · exact Or.inl h
    · right
      rw [h]
      exact ⟨List.mem_singleton.2 rfl, rfl⟩
  | erase streamletTag =>
    left
    exact (List.mem_filter.1 he).1
  | clear =>
    simp [DavRiver.step, DavRiver.clear] at he

theorem DavRiver.run_mem (steps : List (World × RiverOp)) (r : DavRiver)
    (e : DavStreamletTag × StreamletPtr) (he : e ∈ (r.run steps).m_river) :
    e ∈ r.m_river ∨
      ∃ x ∈ steps, e.2 ∈ x.2.inserted ∧ e.1 = (x.1.streamlet e.2).getTag := by
  induction steps generalizing r with
  | nil => exact Or.inl he
  | cons x rest ih =>
    unfold DavRiver.run at he
    rcases ih _ he with h | ⟨y, hy, h⟩
    · rcases DavRiver.step_mem r x.1 x.2 e h with h2 | h2
      · exact Or.inl h2
      · exact Or.inr ⟨x, List.mem_cons_self _ _, h2⟩
    · exact Or.inr ⟨y, List.mem_cons_of_mem _ hy, h⟩

theorem DavRiver.step_keysAreTags (r : DavRiver) (w : World) (op : RiverOp)
    (h : r.keysAreTags w) : (r.step w op).keysAreTags w := by
  intro e he
  rcases DavRiver.step_mem r w op e he with h1 | ⟨_, h2⟩
  · exact h e h1
  · exact h2

theorem DavRiver.run_keysAreTags (w : World) (ops : List RiverOp) (r : DavRiver)
    (h : r.keysAreTags w) : (r.run (ops.map (fun op => (w, op)))).keysAreTags w := by
  induction ops generalizing r with
  | nil => exact h
  | cons op rest ih =>
    rw [List.map_cons]
    unfold DavRiver.run
    exact ih _ (DavRiver.step_keysAreTags r w op h)

theorem DavRiver.dumpRiver_foldl (typeName : type_index → String) (m : RiverEntries)
    (acc : String) :
    m.foldl (fun dumpStr s => (dumpStr ++ s.1.dumpTag typeName) ++ "\n") acc =
      (m.map (fun e => e.1.dumpTag typeName ++ "\n")).foldl (fun a b => a ++ b) acc := by
  induction m generalizing acc with
  | nil => rfl
  | cons e rest ih =>
    rw [List.foldl_cons, List.map_cons, List.foldl_cons, ih, String.append_assoc]

/-- C19: in a River reached from the empty River by `init`, `add`, `erase` and `clear`,
every key is the tag that the Streamlet of the entry had in the world of the call that
handed it to the River. The River operations, `start` and `stop` included, leave every
Streamlet of the heap as it is, so while no Streamlet is changed every key is the
current tag of its Streamlet, and every operation keeps that. Of the Streamlet
operations only `setTag` changes a tag: on a contained Streamlet with a new tag it
breaks the property, on a Streamlet that is not contained it does not. `get`, the
category query and the dump read the stored keys. -/
theorem C19_keys_are_tags_at_insertion (react : WaveReaction) (r : DavRiver) (w : World) :
    (∀ steps : List (World × RiverOp), ∀ e ∈ (DavRiver.run {} steps).m_river,
        ∃ x ∈ steps, e.2 ∈ x.2.inserted ∧ e.1 = (x.1.streamlet e.2).getTag) ∧
      (∀ (op : RiverOp), ∀ e ∈ (r.step w op).m_river,
        e ∈ r.m_river ∨ (e.2 ∈ op.inserted ∧ e.1 = (w.streamlet e.2).getTag)) ∧
      (∀ ops : List RiverOp,
        (DavRiver.run {} (ops.map (fun op => (w, op)))).keysAreTags w) ∧
      (∀ op : RiverOp, r.keysAreTags w → (r.step w op).keysAreTags w) ∧
      ((r.start react w).streamlet = w.streamlet ∧
        (r.stop react w).streamlet = w.streamlet) ∧
      (∀ (s : DavStreamlet) (ws : Waves) (op : StreamletOp),
        (∀ tag : DavStreamletTag, op ≠ StreamletOp.setTag tag) →
          (s.step react ws op).1.getTag = s.getTag) ∧
      (∀ (k : DavStreamletTag) (p : StreamletPtr) (tag : DavStreamletTag),
        (k, p) ∈ r.m_river → tag ≠ k → ¬ r.keysAreTags (w.setTag p tag)) ∧
      (∀ (p : StreamletPtr) (tag : DavStreamletTag),
        (∀ e ∈ r.m_river, e.2 ≠ p) → r.keysAreTags w → r.keysAreTags (w.setTag p tag)) ∧
      (r.sorted → ∀ (k : DavStreamletTag) (p : StreamletPtr), (k, p) ∈ r.m_river →
        (r.get k).2 = Except.ok (some p) ∧ p ∈ r.getStreamletsByCategory k) ∧
      (∀ typeName : type_index → String,
        r.dumpRiver typeName =
          (r.m_river.map (fun e => e.1.dumpTag typeName ++ "\n")).foldl
            (fun a b => a ++ b) "") := by
  refine ⟨?_, ?_, ?_, ?_, ?_, ?_, ?_, ?_, ?_, ?_⟩
  · intro steps e he
    rcases DavRiver.run_mem steps {} e he with h | h
    · simp at h
    · exact h
  · intro op e he
    exact DavRiver.step_mem r w op e he
  · intro ops
    apply DavRiver.run_keysAreTags
    intro e he
    simp at he
  · intro op h
    exact DavRiver.step_keysAreTags r w op h
  · exact ⟨DavRiver.start_foldl_streamlet react r.m_river w,
      (DavRiver.stop_foldl_frame react r.m_river w).1⟩
  · intro s ws op hop
    cases op with
    | setTag tag => exact absurd rfl (hop tag)
    | _ => rfl
  · intro k p tag hmem hne hkeys
    have := hkeys (k, p) hmem
    simp only [World.setTag, DavStreamlet.getTag, DavStreamlet.setTag, if_true] at this
    exact hne this.symm
  · intro p tag hnot hkeys e he
    have h1 := hkeys e he
    have h2 : e.2 ≠ p := hnot e he
    simp only [World.setTag, h2, if_false]
    exact h1
  · intro hs k p hmem
    constructor
    · rw [DavRiver.get_eq, map_sorted_find r.m_river k p hs hmem]
      rfl
    · unfold DavRiver.getStreamletsByCategory
      rw [DavRiver.byCategory_foldl]
      simp only [List.nil_append, List.mem_map, List.mem_filter, decide_eq_true_eq]
      exact ⟨(k, p), ⟨hmem, rfl⟩, rfl⟩
  · intro typeName
    exact DavRiver.dumpRiver_foldl typeName r.m_river ""

/-- Witness of C19: `sameTagRiver` holds the Streamlet at address 1 under its tag, named
`a`. After `setTag` on that Streamlet with the name `b` the key is no longer its tag, and
`get` of the stored key still returns the Streamlet; `setTag` on the Streamlet at address
2, which is not contained, keeps the property; and so does `erase`. -/
theorem C19_keys_are_tags_at_insertion_witness :
    sameTagRiver.keysAreTags sameTagWorld ∧
      (DavUnknownStreamletTag.named "a", 1) ∈ sameTagRiver.m_river ∧
      DavUnknownStreamletTag.named "b" ≠ DavUnknownStreamletTag.named "a" ∧
      ¬ sameTagRiver.keysAreTags
        (sameTagWorld.setTag 1 (DavUnknownStreamletTag.named "b")) ∧
      (∀ e ∈ sameTagRiver.m_river, e.2 ≠ 2) ∧
      sameTagRiver.keysAreTags (sameTagWorld.setTag 2 (DavUnknownStreamletTag.named "b")) ∧
      (sameTagRiver.step sameTagWorld
        (RiverOp.erase (DavUnknownStreamletTag.named "b"))).keysAreTags sameTagWorld ∧
      sameTagRiver.sorted ∧
      (sameTagRiver.get (DavUnknownStreamletTag.named "a")).2 = Except.ok (some 1) :=
  ⟨by decide, by decide, by decide,
    (C19_keys_are_tags_at_insertion runReaction sameTagRiver sameTagWorld).2.2.2.2.2.2.1
      (DavUnknownStreamletTag.named "a") 1 (DavUnknownStreamletTag.named "b")
      (by decide) (by decide),
    by decide,
    (C19_keys_are_tags_at_insertion runReaction sameTagRiver sameTagWorld).2.2.2.2.2.2.2.1
      2 (DavUnknownStreamletTag.named "b") (by decide) (by decide),
    (C19_keys_are_tags_at_insertion runReaction sameTagRiver sameTagWorld).2.2.2.1
      (RiverOp.erase (DavUnknownStreamletTag.named "b")) (by decide),
    by decide,
    ((C19_keys_are_tags_at_insertion runReaction sameTagRiver sameTagWorld).2.2.2.2.2.2.2.2.1
      (by decide) (DavUnknownStreamletTag.named "a") 1 (by decide)).1⟩

end ff_dynamic
